import Mathlib

/-!
# Prep.AI interview turn state machine — verification development

Shallow embedding of the interview client in `frontend/src/App.jsx`
(the current iteration of the component, the one defining the `TURN`
enum and the `activeSubmitTokenRef` monotonic token).

Modelling conventions:

* React `useState` fields and `useRef` cells become fields of one
  explicit `AppState` record; a `setX(v)` call becomes a functional
  update of that field.  Reads of state inside handlers are modelled
  as reads of the current session state (the explicit-session-context
  reading the specification itself uses); `useRef` cells such as
  `activeSubmitTokenRef` are mutable and current in the source as
  well.
* Each `async` handler is split at its `await` points: the synchronous
  prefix is a function `AppState → AppState` that records the launched
  request as a `Pending` entry; the continuation after the `await`
  becomes a `resolve…` function applied later by the environment, with
  the response (success payload or error) chosen by the environment.
  The local variables a continuation closes over (`token`, `question`,
  the answer text, `updatedAllQA`, …) are carried in the `Pending`
  entry or in the speech callback value.
* Browser speech synthesis is a single output slot: `speak` replaces
  whatever utterance is pending (`window.speechSynthesis.cancel()`),
  and its `onend` callback is stored in `speechSlot` to be fired by
  the environment — or invoked immediately when `window.speechSynthesis`
  is absent (`synthAvailable = false`).
* `MediaRecorder.stop()` marks the recorder inactive and queues the
  `onstop` event (`Pending.recorderStopped`); the handler body of
  `onstop` is `recorderOnStop`.  The 45-second `setTimeout` from
  `startRecording` is the `recorderTimeout` event.
* `alert(...)` calls append to an `alerts` log so that validation
  reporting is observable.  Purely cosmetic state (the seconds counter
  of the recording widget, CSS, the role dropdown plumbing) and the
  request payload fields that no continuation ever reads back
  (`role`, `resume_summary`, `topics` in request bodies) are not
  tracked; no claim mentions them.
-/

/-- `{sender, text}` entries of a `QARecord.conversation`. -/
inductive Sender where
  | agent
  | candidate
deriving DecidableEq, Repr

/-- One conversation turn `{sender, text}`. -/
structure ConvTurn where
  sender : Sender
  text : String
deriving DecidableEq, Repr

/-- A generated interview question `{id, type, text}`. -/
structure Question where
  id : Nat
  qtype : String
  text : String
deriving DecidableEq, Repr

/-- The per-question record `qaItem` assembled in `submitSingleAnswer` /
`handleSkipClick`: question text, the 3-turn conversation, and the
respond collaborator's `summary`, `remarks`, `score`, plus
`meta.source` (here the field `source`). -/
structure QARecord where
  question : String
  conversation : List ConvTurn
  summary : String
  remarks : String
  score : Int
  source : String
deriving DecidableEq, Repr

/-- Successful `/api/respond` (and `/api/skip`) response body:
`{reply, summary, remarks, score}`. -/
structure RespondData where
  reply : String
  summary : String
  remarks : String
  score : Int
deriving DecidableEq, Repr

/-- Successful `/api/evaluate` scores `{communication, technical,
roleFit, overall}`. -/
structure Scores where
  communication : Int
  technical : Int
  roleFit : Int
  overall : Int
deriving DecidableEq, Repr

/-- Successful `/api/evaluate` feedback object. -/
structure Feedback where
  summary : String
  strengths : List String
  improvements : List String
  nextSteps : String
deriving DecidableEq, Repr

/-- The `TURN` enum of the source. -/
inductive TURN where
  | ASKING
  | LISTENING
  | SUBMITTING
  | FEEDBACK
  | DONE
deriving DecidableEq, Repr

/-- The `onEnd` callback stored with a pending utterance.
`toListening` is the callback `() => setTurnState(TURN.LISTENING)`
(used by `askQuestion` and by the empty-transcript retry prompt);
`advance qaData curIdx numQ` is the callback of `submitSingleAnswer` /
`handleSkipClick` that closes over `updatedAllQA`, `currentIndex` and
`questions.length` and either asks the next question or finishes;
`noCb` is a `speak` call with no `onEnd` argument. -/
inductive SpeechCb where
  | toListening
  | advance (qaData : List QARecord) (curIdx : Nat) (numQ : Nat)
  | noCb
deriving DecidableEq, Repr

/-- An in-flight asynchronous completion: a network round-trip that
has been launched but whose continuation has not yet run, or a queued
`MediaRecorder` `onstop` event.  Network entries carry the token the
submission captured and the locals its continuation closes over. -/
inductive Pending where
  | transcribe (token : Nat) (blob : String)
  | respond (token : Nat) (q : Question) (answerText : String) (source : String)
  | skip (token : Nat) (q : Question)
  | evaluate (qaData : List QARecord)
  | save
  | recorderStopped
deriving DecidableEq, Repr

/-- The session state of the component: every `useState`/`useRef`
field the interview logic reads or writes, plus the pending
asynchronous completions and the single speech-output slot. -/
structure AppState where
  questions : List Question
  editingQuestions : List Question
  interviewStarted : Bool
  currentIndex : Nat
  allQA : List QARecord
  agentMessage : String
  userInput : String
  scores : Option Scores
  feedback : Option Feedback
  isRecording : Bool
  turnState : TURN
  activeSubmitToken : Nat
  recorderActive : Bool
  recordedChunks : List String
  speechSlot : Option SpeechCb
  pending : List Pending
  synthAvailable : Bool
  alerts : List String
deriving DecidableEq, Repr

/-- Model of JavaScript `String.prototype.trim()` (used as
`(userInput || "").trim()` and `(transcribeRes.data.text || "").trim()`
in the source): strips leading and trailing whitespace.  Defined over
the character list so that it evaluates inside the kernel. -/
def jsTrim (s : String) : String :=
  String.mk (((s.data.dropWhile Char.isWhitespace).reverse.dropWhile
    Char.isWhitespace).reverse)

/-- `const ANSWER_RECORD_MS = 45000; // 45s per answer window`. -/
def ANSWER_RECORD_MS : Nat := 45000

/-- Effect of the `() => setTurnState(TURN.LISTENING)` callback. -/
def runListening (s : AppState) : AppState :=
  { s with turnState := TURN.LISTENING }

/-- `speak(text, () => setTurnState(TURN.LISTENING))`: with synthesis
available the utterance (cancelling any current one) parks the
callback in the slot; otherwise `speak` invokes `onEnd` immediately. -/
def speakListening (s : AppState) : AppState :=
  if s.synthAvailable then { s with speechSlot := some SpeechCb.toListening }
  else runListening s

/-- `speak(text)` with no `onEnd`: occupies the slot (cancelling any
current utterance) and completes without effect. -/
def speakNoCb (s : AppState) : AppState :=
  if s.synthAvailable then { s with speechSlot := some SpeechCb.noCb }
  else s

/-- The spoken prompt `Question ${index + 1} of 3: ${q.text}`. -/
def askMsg (index : Nat) (q : Question) : String :=
  "Question " ++ toString (index + 1) ++ " of 3: " ++ q.text

/-- `askQuestion(index)`: invalidates in-flight submits by bumping the
token, sets the index, and if the question exists announces it and
enters `ASKING`; `LISTENING` is reached when the read-aloud ends. -/
def askQuestion (index : Nat) (s : AppState) : AppState :=
  match s.editingQuestions.get? index with
  | none => { s with activeSubmitToken := s.activeSubmitToken + 1, currentIndex := index }
  | some q =>
      speakListening
        { s with activeSubmitToken := s.activeSubmitToken + 1, currentIndex := index,
                 agentMessage := askMsg index q, userInput := "",
                 turnState := TURN.ASKING }

/-- `finishInterview(qaData)` up to its first `await`: launches the
`/api/evaluate` round-trip (the rest of the body is
`resolveEvaluate` / `resolveSave`). -/
def finishInterview (qaData : List QARecord) (s : AppState) : AppState :=
  { s with pending := Pending.evaluate qaData :: s.pending }

/-- The feedback `onEnd` callback body: `const next = currentIndex + 1;
if (next < questions.length) askQuestion(next); else
finishInterview(updatedAllQA);` over its captured values. -/
def runAdvance (qaData : List QARecord) (curIdx : Nat) (numQ : Nat) (s : AppState) : AppState :=
  if curIdx + 1 < numQ then askQuestion (curIdx + 1) s
  else finishInterview qaData s

/-- `speak(reply, …advance callback…)`, capturing `updatedAllQA`,
`currentIndex` and `questions.length`. -/
def speakAdvance (qaData : List QARecord) (s : AppState) : AppState :=
  if s.synthAvailable then
    { s with speechSlot := some (SpeechCb.advance qaData s.currentIndex s.questions.length) }
  else runAdvance qaData s.currentIndex s.questions.length s

/-- Dispatch of a completed utterance's callback. -/
def runSpeechCb : SpeechCb → AppState → AppState
  | SpeechCb.toListening, s => runListening s
  | SpeechCb.advance qa i n, s => runAdvance qa i n s
  | SpeechCb.noCb, s => s

/-- `submitSingleAnswer(answerText, meta, token)` up to its `await`:
reads `questions[currentIndex]`; if absent falls back to `LISTENING`,
otherwise launches the `/api/respond` round-trip whose continuation
closes over `question`, `answerText`, `meta` and `token`. -/
def submitSingleAnswer (answerText : String) (source : String) (token : Nat)
    (s : AppState) : AppState :=
  match s.questions.get? s.currentIndex with
  | none => { s with turnState := TURN.LISTENING }
  | some q => { s with pending := Pending.respond token q answerText source :: s.pending }

/-- The record assembled by `submitSingleAnswer` on a successful
respond: agent turn restating the question, candidate turn with the
answer, agent turn with the reply, tagged with `meta.source`. -/
def respondRecord (q : Question) (answerText : String) (source : String)
    (d : RespondData) : QARecord :=
  { question := q.text
    conversation :=
      [ { sender := Sender.agent, text := "Question: " ++ q.text },
        { sender := Sender.candidate, text := answerText },
        { sender := Sender.agent, text := d.reply } ]
    summary := d.summary
    remarks := d.remarks
    score := d.score
    source := source }

/-- Continuation of `submitSingleAnswer` after the `/api/respond`
round-trip returns (`resp = some d`) or throws (`resp = none`):
the token guard runs first in both branches. -/
def resolveRespond (token : Nat) (q : Question) (answerText : String) (source : String)
    (resp : Option RespondData) (s : AppState) : AppState :=
  match resp with
  | some d =>
      if s.activeSubmitToken ≠ token then s
      else
        speakAdvance (s.allQA ++ [respondRecord q answerText source d])
          { s with allQA := s.allQA ++ [respondRecord q answerText source d],
                   turnState := TURN.FEEDBACK,
                   agentMessage := d.reply, userInput := "" }
  | none =>
      if s.activeSubmitToken ≠ token then s
      else
        speakNoCb { s with agentMessage := "Backend error. Please try again.",
                           turnState := TURN.LISTENING }

/-- `submitVoiceBlob(blob)` up to its `await`: rejected outside
`LISTENING`; otherwise enters `SUBMITTING`, increments the token,
captures it, and launches `/api/transcribe`. -/
def submitVoiceBlob (blob : String) (s : AppState) : AppState :=
  if s.turnState ≠ TURN.LISTENING then s
  else
    { s with turnState := TURN.SUBMITTING,
             activeSubmitToken := s.activeSubmitToken + 1,
             pending := Pending.transcribe (s.activeSubmitToken + 1) blob :: s.pending }

/-- Continuation of `submitVoiceBlob` after `/api/transcribe` returns
(`resp = some text`, the `.text || ""` field) or throws
(`resp = none`).  The token guard runs before anything else; an
empty trimmed transcript is the recoverable retry prompt whose
read-aloud completion returns the machine to `LISTENING`; a
non-empty transcript continues into `submitSingleAnswer` with
`meta.source = "voice"` and the same token. -/
def resolveTranscribe (token : Nat) (resp : Option String) (s : AppState) : AppState :=
  match resp with
  | some text =>
      if s.activeSubmitToken ≠ token then s
      else
        if jsTrim text = "" then
          speakListening
            { s with agentMessage := "I couldn’t catch that. Please answer again (voice or text)." }
        else submitSingleAnswer (jsTrim text) "voice" token s
  | none =>
      if s.activeSubmitToken ≠ token then s
      else
        speakNoCb { s with agentMessage := "Transcription failed. Please type your answer.",
                           turnState := TURN.LISTENING }

/-- `mediaRecorder.stop()` (also reached through `stopAnyRecording`
and the 45-second timeout): a no-op on an inactive recorder, else the
recorder becomes inactive and its `onstop` event is queued. -/
def recStop (s : AppState) : AppState :=
  if s.recorderActive then
    { s with recorderActive := false, pending := Pending.recorderStopped :: s.pending }
  else s

/-- `stopAnyRecording()`: `if (mediaRecorderRef.current && isRecording)
mediaRecorderRef.current.stop()`. -/
def stopAnyRecording (s : AppState) : AppState :=
  if s.isRecording then recStop s else s

/-- The `mediaRecorder.onstop` handler: assembles the blob from the
accumulated chunks, releases the device, clears `isRecording`, and —
only if still `LISTENING` (the stale-submit guard) — feeds the blob
into `submitVoiceBlob`. -/
def recorderOnStop (s : AppState) : AppState :=
  if s.turnState ≠ TURN.LISTENING then { s with isRecording := false }
  else submitVoiceBlob (String.join s.recordedChunks) { s with isRecording := false }

/-- `startRecording()`: rejected outside `LISTENING` and while already
recording; reports (alert) without state change when the capture
device is unavailable; otherwise resets the chunk buffer and starts
the recorder (the 45-second auto-stop timeout is armed, modelled by
the availability of the `recorderTimeout` event). -/
def startRecording (deviceOk : Bool) (s : AppState) : AppState :=
  if s.turnState ≠ TURN.LISTENING then s
  else if s.isRecording then s
  else if deviceOk = false then
    { s with alerts := s.alerts ++ ["Could not access microphone."] }
  else
    { s with recordedChunks := [], isRecording := true, recorderActive := true }

/-- `stopRecording()` (the manual Stop & Send button): rejected outside
`LISTENING`; otherwise stops an active recorder. -/
def stopRecording (s : AppState) : AppState :=
  if s.turnState ≠ TURN.LISTENING then s
  else if s.isRecording then recStop s
  else s

/-- The `setTimeout` body armed for `ANSWER_RECORD_MS` by
`startRecording`: `if (mediaRecorder.state === "recording")
mediaRecorder.stop()`. -/
def recorderTimeout (s : AppState) : AppState :=
  if s.recorderActive then recStop s else s

/-- `mediaRecorder.ondataavailable`: appends a non-empty chunk while
the recorder is active. -/
def dataAvailable (c : String) (s : AppState) : AppState :=
  if s.recorderActive ∧ c ≠ "" then { s with recordedChunks := s.recordedChunks ++ [c] }
  else s

/-- Typing in the answer textarea (enabled only while `LISTENING` and
not recording). -/
def setUserInput (t : String) (s : AppState) : AppState :=
  { s with userInput := t }

/-- `handleTextSubmit`: rejected outside `LISTENING`; stops any active
recording, ignores an empty trimmed input, else enters `SUBMITTING`,
bumps and captures the token and hands the trimmed text to
`submitSingleAnswer` with `meta.source = "typed"`. -/
def handleTextSubmit (s : AppState) : AppState :=
  if s.turnState ≠ TURN.LISTENING then s
  else if jsTrim (stopAnyRecording s).userInput = "" then stopAnyRecording s
  else
    submitSingleAnswer (jsTrim (stopAnyRecording s).userInput) "typed"
      ((stopAnyRecording s).activeSubmitToken + 1)
      { (stopAnyRecording s) with
          turnState := TURN.SUBMITTING,
          activeSubmitToken := (stopAnyRecording s).activeSubmitToken + 1 }

/-- `handleSkipClick` up to its `await`: rejected outside `LISTENING`;
stops any active recording, enters `SUBMITTING`, bumps and captures
the token, and launches `/api/skip` for `questions[currentIndex]`. -/
def handleSkipClick (s : AppState) : AppState :=
  if s.turnState ≠ TURN.LISTENING then s
  else
    match (stopAnyRecording s).questions.get? (stopAnyRecording s).currentIndex with
    | none =>
        { (stopAnyRecording s) with
            turnState := TURN.LISTENING,
            activeSubmitToken := (stopAnyRecording s).activeSubmitToken + 1 }
    | some q =>
        { (stopAnyRecording s) with
            turnState := TURN.SUBMITTING,
            activeSubmitToken := (stopAnyRecording s).activeSubmitToken + 1,
            pending := Pending.skip ((stopAnyRecording s).activeSubmitToken + 1) q
              :: (stopAnyRecording s).pending }

/-- The record assembled by `handleSkipClick` on success: placeholder
candidate turn `[SKIPPED]`, `meta.source = "skip"`. -/
def skipRecord (q : Question) (d : RespondData) : QARecord :=
  { question := q.text
    conversation :=
      [ { sender := Sender.agent, text := "Question: " ++ q.text },
        { sender := Sender.candidate, text := "[SKIPPED]" },
        { sender := Sender.agent, text := d.reply } ]
    summary := d.summary
    remarks := d.remarks
    score := d.score
    source := "skip" }

/-- Continuation of `handleSkipClick` after `/api/skip` returns or
throws; same shape as `resolveRespond` with the skip record. -/
def resolveSkip (token : Nat) (q : Question) (resp : Option RespondData)
    (s : AppState) : AppState :=
  match resp with
  | some d =>
      if s.activeSubmitToken ≠ token then s
      else
        let updated := s.allQA ++ [skipRecord q d]
        speakAdvance updated
          { s with allQA := updated, turnState := TURN.FEEDBACK,
                   agentMessage := d.reply, userInput := "" }
  | none =>
      if s.activeSubmitToken ≠ token then s
      else
        speakNoCb { s with agentMessage := "Skip failed. Please try again.",
                           turnState := TURN.LISTENING }

/-- `startInterview()`: with `editingQuestions.length !== 3` an alert
reports the validation failure and nothing else changes; otherwise
the edited questions become the interview questions, prior scores,
feedback and records are cleared and question 0 is asked. -/
def startInterview (s : AppState) : AppState :=
  if s.editingQuestions.length ≠ 3 then
    { s with alerts := s.alerts ++ ["You must have exactly 3 questions."] }
  else
    askQuestion 0
      { s with questions := s.editingQuestions, interviewStarted := true,
               scores := none, feedback := none, allQA := [] }

/-- The shared `catch` tail of `finishInterview`. -/
def finishCatch (s : AppState) : AppState :=
  speakNoCb { s with agentMessage := "Interview completed, but evaluation failed.",
                     interviewStarted := false, turnState := TURN.DONE }

/-- Continuation of `finishInterview` after `/api/evaluate` returns
(`resp = some (scores, feedback)`) or throws: on success the scores
and feedback are stored and the `/api/save-result` round-trip is
launched; on error the shared catch runs. -/
def resolveEvaluate (resp : Option (Scores × Feedback)) (s : AppState) : AppState :=
  match resp with
  | some sf =>
      { s with scores := some sf.1, feedback := some sf.2, pending := Pending.save :: s.pending }
  | none => finishCatch s

/-- Continuation of `finishInterview` after `/api/save-result`
succeeds (`ok = true`) or throws: the stored scores and feedback are
untouched either way; only the closing message differs. -/
def resolveSave (ok : Bool) (s : AppState) : AppState :=
  if ok then
    speakNoCb { s with agentMessage := "Interview completed. Review your scores and feedback.",
                       interviewStarted := false, turnState := TURN.DONE }
  else finishCatch s

/-- The render-time condition under which the score panel is shown:
`scores && feedback`. -/
def resultsDisplayed (s : AppState) : Prop :=
  s.scores.isSome = true ∧ s.feedback.isSome = true

/-! ## The session step relation

One step is one of: a user gesture on an enabled control, a queued
recorder or timer event firing, a pending utterance finishing, or a
launched network round-trip completing with an environment-chosen
response.  A completing round-trip is consumed from `pending` and its
continuation runs on the state at completion time. -/

/-- The token a pending entry captured, when it is one of the
token-guarded submissions. -/
def pendingToken : Pending → Option Nat
  | Pending.transcribe t _ => some t
  | Pending.respond t _ _ _ => some t
  | Pending.skip t _ => some t
  | _ => none

/-- Whether a pending entry is a finalization round-trip
(`/api/evaluate` or `/api/save-result`). -/
def finalReq : Pending → Bool
  | Pending.evaluate _ => true
  | Pending.save => true
  | _ => false

/-- Small-step transition relation of one interview session. -/
inductive Step : AppState → AppState → Prop where
  | textSubmit (s : AppState) : Step s (handleTextSubmit s)
  | skipClick (s : AppState) : Step s (handleSkipClick s)
  | startRec (ok : Bool) (s : AppState) : Step s (startRecording ok s)
  | stopRec (s : AppState) : Step s (stopRecording s)
  | timer (s : AppState) : Step s (recorderTimeout s)
  | chunk (c : String) (s : AppState) : Step s (dataAvailable c s)
  | typeInput (t : String) (s : AppState) :
      s.turnState = TURN.LISTENING → s.isRecording = false →
      Step s (setUserInput t s)
  | fireSpeech (cb : SpeechCb) (s : AppState) :
      s.speechSlot = some cb →
      Step s (runSpeechCb cb { s with speechSlot := none })
  | netTranscribe (tok : Nat) (blob : String) (l1 l2 : List Pending)
      (resp : Option String) (s : AppState) :
      s.pending = l1 ++ Pending.transcribe tok blob :: l2 →
      Step s (resolveTranscribe tok resp { s with pending := l1 ++ l2 })
  | netRespond (tok : Nat) (q : Question) (a src : String) (l1 l2 : List Pending)
      (resp : Option RespondData) (s : AppState) :
      s.pending = l1 ++ Pending.respond tok q a src :: l2 →
      Step s (resolveRespond tok q a src resp { s with pending := l1 ++ l2 })
  | netSkip (tok : Nat) (q : Question) (l1 l2 : List Pending)
      (resp : Option RespondData) (s : AppState) :
      s.pending = l1 ++ Pending.skip tok q :: l2 →
      Step s (resolveSkip tok q resp { s with pending := l1 ++ l2 })
  | netEvaluate (qa : List QARecord) (l1 l2 : List Pending)
      (resp : Option (Scores × Feedback)) (s : AppState) :
      s.pending = l1 ++ Pending.evaluate qa :: l2 →
      Step s (resolveEvaluate resp { s with pending := l1 ++ l2 })
  | netSave (l1 l2 : List Pending) (ok : Bool) (s : AppState) :
      s.pending = l1 ++ Pending.save :: l2 →
      Step s (resolveSave ok { s with pending := l1 ++ l2 })
  | recStopped (l1 l2 : List Pending) (s : AppState) :
      s.pending = l1 ++ Pending.recorderStopped :: l2 →
      Step s (recorderOnStop { s with pending := l1 ++ l2 })

/-- A pre-interview state from which `startInterview` launches a
session: the interview is not running, no utterance is playing, no
request is in flight, no recording is active, and exactly 3 edited
questions exist. -/
def Ready (s : AppState) : Prop :=
  s.editingQuestions.length = 3 ∧ s.turnState = TURN.DONE ∧
  s.pending = [] ∧ s.speechSlot = none ∧
  s.isRecording = false ∧ s.recorderActive = false

instance (s : AppState) : Decidable (Ready s) := by
  unfold Ready; infer_instance

/-- States reachable during one interview session launched by
`startInterview` from a ready pre-interview state. -/
def Reach (s : AppState) : Prop :=
  ∃ pre : AppState, Ready pre ∧ Relation.ReflTransGen Step (startInterview pre) s

/-- List-level: no entry captured token `n`. -/
def napL (n : Nat) (l : List Pending) : Prop :=
  ∀ p ∈ l, pendingToken p ≠ some n

/-- List-level: number of entries that captured token `n`. -/
def countA (n : Nat) (l : List Pending) : Nat :=
  l.countP (fun p => pendingToken p == some n)

/-- List-level: no finalization round-trip present. -/
def nfpL (l : List Pending) : Prop :=
  ∀ p ∈ l, finalReq p = false

/-- List-level: number of finalization round-trips present. -/
def countF (l : List Pending) : Nat :=
  l.countP finalReq

/-- List-level: every captured token is at most `n`. -/
def boundL (n : Nat) (l : List Pending) : Prop :=
  ∀ p ∈ l, ∀ t, pendingToken p = some t → t ≤ n

/-- No pending round-trip captured the currently active token. -/
def NAP (s : AppState) : Prop :=
  napL s.activeSubmitToken s.pending

/-- Exactly one pending round-trip captured the active token. -/
def oneActive (s : AppState) : Prop :=
  countA s.activeSubmitToken s.pending = 1

/-- No finalization round-trip is in flight. -/
def NFP (s : AppState) : Prop :=
  nfpL s.pending

/-- Exactly one finalization round-trip is in flight. -/
def oneFinal (s : AppState) : Prop :=
  countF s.pending = 1

/-- The utterance slot holds nothing or a callback-free utterance. -/
def slotLN (s : AppState) : Prop :=
  s.speechSlot = none ∨ s.speechSlot = some SpeechCb.noCb

/-- Every pending round-trip captured a token no newer than the
active one. -/
def tokBound (s : AppState) : Prop :=
  boundL s.activeSubmitToken s.pending

/-- The inductive session invariant: shape of the pending set, the
speech slot, and the record-count/index relation in every turn
state. -/
structure SessInv (s : AppState) : Prop where
  qeq : s.questions = s.editingQuestions
  qlen : s.questions.length = 3
  bound : tokBound s
  idx3 : s.currentIndex ≤ 2
  asking : s.turnState = TURN.ASKING →
    s.allQA.length = s.currentIndex ∧ NAP s ∧ NFP s ∧
    s.synthAvailable = true ∧ s.speechSlot = some SpeechCb.toListening
  listening : s.turnState = TURN.LISTENING →
    s.allQA.length = s.currentIndex ∧ NAP s ∧ NFP s ∧ slotLN s
  submitting : s.turnState = TURN.SUBMITTING →
    s.allQA.length = s.currentIndex ∧ NFP s ∧
    ((oneActive s ∧ slotLN s) ∨
      (NAP s ∧ s.synthAvailable = true ∧ s.speechSlot = some SpeechCb.toListening))
  fdbk : s.turnState = TURN.FEEDBACK →
    NAP s ∧
    ((s.allQA.length = s.currentIndex + 1 ∧ NFP s ∧ s.synthAvailable = true ∧
        s.speechSlot = some (SpeechCb.advance s.allQA s.currentIndex 3)) ∨
      (s.currentIndex = 2 ∧ s.allQA.length = 3 ∧ slotLN s ∧ oneFinal s))
  done : s.turnState = TURN.DONE →
    s.allQA.length = 3 ∧ NAP s ∧ NFP s ∧ slotLN s

/-! ## Pending-set bookkeeping lemmas -/

lemma napL_of_boundL_succ {n : Nat} {l : List Pending} (h : boundL n l) :
    napL (n + 1) l := by
  intro p hp hc
  have := h p hp (n + 1) hc
  omega

lemma boundL_succ {n : Nat} {l : List Pending} (h : boundL n l) :
    boundL (n + 1) l := by
  intro p hp t ht
  have := h p hp t ht
  omega

lemma mem_removed {l1 l2 : List Pending} {x p : Pending} (h : p ∈ l1 ++ l2) :
    p ∈ l1 ++ x :: l2 := by
  simp only [List.mem_append, List.mem_cons] at *
  tauto

lemma napL_removed {n : Nat} {l1 l2 : List Pending} {x : Pending}
    (h : napL n (l1 ++ x :: l2)) : napL n (l1 ++ l2) :=
  fun p hp => h p (mem_removed hp)

lemma nfpL_removed {l1 l2 : List Pending} {x : Pending}
    (h : nfpL (l1 ++ x :: l2)) : nfpL (l1 ++ l2) :=
  fun p hp => h p (mem_removed hp)

lemma boundL_removed {n : Nat} {l1 l2 : List Pending} {x : Pending}
    (h : boundL n (l1 ++ x :: l2)) : boundL n (l1 ++ l2) :=
  fun p hp => h p (mem_removed hp)

lemma countA_removed (n : Nat) (l1 l2 : List Pending) (x : Pending) :
    countA n (l1 ++ x :: l2) =
      countA n (l1 ++ l2) + (if pendingToken x = some n then 1 else 0) := by
  unfold countA
  simp only [List.countP_append, List.countP_cons]
  by_cases h : pendingToken x = some n
  · simp [h]; try omega
  · simp [h]; try omega

lemma countF_removed (l1 l2 : List Pending) (x : Pending) :
    countF (l1 ++ x :: l2) = countF (l1 ++ l2) + (if finalReq x = true then 1 else 0) := by
  unfold countF
  simp only [List.countP_append, List.countP_cons]
  by_cases h : finalReq x = true
  · simp [h]; try omega
  · simp [h]; try omega

lemma countA_cons (n : Nat) (l : List Pending) (x : Pending) :
    countA n (x :: l) = countA n l + (if pendingToken x = some n then 1 else 0) := by
  have := countA_removed n [] l x
  simpa using this

lemma countF_cons (l : List Pending) (x : Pending) :
    countF (x :: l) = countF l + (if finalReq x = true then 1 else 0) := by
  have := countF_removed [] l x
  simpa using this

lemma countA_eq_zero {n : Nat} {l : List Pending} : napL n l ↔ countA n l = 0 := by
  unfold napL countA
  rw [List.countP_eq_zero]
  constructor
  · intro h p hp
    simp only [beq_iff_eq]
    exact h p hp
  · intro h p hp
    have := h p hp
    simp only [beq_iff_eq] at this
    exact this

lemma countF_eq_zero {l : List Pending} : nfpL l ↔ countF l = 0 := by
  unfold nfpL countF
  rw [List.countP_eq_zero]
  constructor
  · intro h p hp
    simp [h p hp]
  · intro h p hp
    have := h p hp
    simpa using this

lemma napL_cons {n : Nat} {l : List Pending} {x : Pending}
    (hx : pendingToken x ≠ some n) (h : napL n l) : napL n (x :: l) := by
  intro p hp
  rcases List.mem_cons.mp hp with rfl | hp
  · exact hx
  · exact h p hp

lemma nfpL_cons {l : List Pending} {x : Pending}
    (hx : finalReq x = false) (h : nfpL l) : nfpL (x :: l) := by
  intro p hp
  rcases List.mem_cons.mp hp with rfl | hp
  · exact hx
  · exact h p hp

lemma boundL_cons {n : Nat} {l : List Pending} {x : Pending}
    (hx : ∀ t, pendingToken x = some t → t ≤ n) (h : boundL n l) : boundL n (x :: l) := by
  intro p hp
  rcases List.mem_cons.mp hp with rfl | hp
  · exact hx
  · exact h p hp

/-! ## Invariant preservation -/

lemma inv_same_core {s s' : AppState} (h : SessInv s)
    (hq : s'.questions = s.questions) (he : s'.editingQuestions = s.editingQuestions)
    (hidx : s'.currentIndex = s.currentIndex) (hqa : s'.allQA = s.allQA)
    (hts : s'.turnState = s.turnState) (htok : s'.activeSubmitToken = s.activeSubmitToken)
    (hslot : s'.speechSlot = s.speechSlot) (hsyn : s'.synthAvailable = s.synthAvailable)
    (hp : s'.pending = s.pending ∨ s'.pending = Pending.recorderStopped :: s.pending) :
    SessInv s' := by
  have hnap : NAP s → NAP s' := by
    intro hn
    unfold NAP at *
    rw [htok]
    rcases hp with hp | hp <;> rw [hp]
    · exact hn
    · exact napL_cons (by simp [pendingToken]) hn
  have hnfp : NFP s → NFP s' := by
    intro hn
    unfold NFP at *
    rcases hp with hp | hp <;> rw [hp]
    · exact hn
    · exact nfpL_cons (by simp [finalReq]) hn
  have hone : oneActive s → oneActive s' := by
    intro hn
    unfold oneActive at *
    rw [htok]
    rcases hp with hp | hp <;> rw [hp]
    · exact hn
    · rw [countA_cons]
      simpa [pendingToken] using hn
  have honeF : oneFinal s → oneFinal s' := by
    intro hn
    unfold oneFinal at *
    rcases hp with hp | hp <;> rw [hp]
    · exact hn
    · rw [countF_cons]
      simpa [finalReq] using hn
  have hsl : slotLN s → slotLN s' := by
    intro hn
    unfold slotLN at *
    rw [hslot]
    exact hn
  refine ⟨?_, ?_, ?_, ?_, ?_, ?_, ?_, ?_, ?_⟩
  · rw [hq, he]; exact h.qeq
  · rw [hq]; exact h.qlen
  · unfold tokBound
    rw [htok]
    rcases hp with hp | hp <;> rw [hp]
    · exact h.bound
    · exact boundL_cons (by simp [pendingToken]) h.bound
  · rw [hidx]; exact h.idx3
  · intro hA
    rw [hts] at hA
    obtain ⟨a1, a2, a3, a4, a5⟩ := h.asking hA
    exact ⟨by rw [hqa, hidx]; exact a1, hnap a2, hnfp a3,
      by rw [hsyn]; exact a4, by rw [hslot]; exact a5⟩
  · intro hL
    rw [hts] at hL
    obtain ⟨a1, a2, a3, a4⟩ := h.listening hL
    exact ⟨by rw [hqa, hidx]; exact a1, hnap a2, hnfp a3, hsl a4⟩
  · intro hS
    rw [hts] at hS
    obtain ⟨a1, a2, a3⟩ := h.submitting hS
    refine ⟨by rw [hqa, hidx]; exact a1, hnfp a2, ?_⟩
    rcases a3 with ⟨b1, b2⟩ | ⟨b1, b2, b3⟩
    · exact Or.inl ⟨hone b1, hsl b2⟩
    · exact Or.inr ⟨hnap b1, by rw [hsyn]; exact b2, by rw [hslot]; exact b3⟩
  · intro hF
    rw [hts] at hF
    obtain ⟨a1, a2⟩ := h.fdbk hF
    refine ⟨hnap a1, ?_⟩
    rcases a2 with ⟨b1, b2, b3, b4⟩ | ⟨b1, b2, b3, b4⟩
    · exact Or.inl ⟨by rw [hqa, hidx]; exact b1, hnfp b2, by rw [hsyn]; exact b3,
        by rw [hslot, hqa, hidx]; exact b4⟩
    · exact Or.inr ⟨by rw [hidx]; exact b1, by rw [hqa]; exact b2, hsl b3, honeF b4⟩
  · intro hD
    rw [hts] at hD
    obtain ⟨a1, a2, a3, a4⟩ := h.done hD
    exact ⟨by rw [hqa]; exact a1, hnap a2, hnfp a3, hsl a4⟩

lemma recStop_cases (s : AppState) :
    recStop s = s ∨
      recStop s = { s with recorderActive := false,
                           pending := Pending.recorderStopped :: s.pending } := by
  unfold recStop
  split
  · exact Or.inr rfl
  · exact Or.inl rfl

lemma inv_recStop {s : AppState} (h : SessInv s) : SessInv (recStop s) := by
  rcases recStop_cases s with hc | hc <;> rw [hc]
  · exact h
  · exact inv_same_core h rfl rfl rfl rfl rfl rfl rfl rfl (Or.inr rfl)

lemma stopAnyRecording_cases (s : AppState) :
    stopAnyRecording s = s ∨
      stopAnyRecording s = { s with recorderActive := false,
                                    pending := Pending.recorderStopped :: s.pending } := by
  unfold stopAnyRecording
  split
  · exact recStop_cases s
  · exact Or.inl rfl

lemma inv_stopAnyRecording {s : AppState} (h : SessInv s) : SessInv (stopAnyRecording s) := by
  rcases stopAnyRecording_cases s with hc | hc <;> rw [hc]
  · exact h
  · exact inv_same_core h rfl rfl rfl rfl rfl rfl rfl rfl (Or.inr rfl)

lemma inv_startRecording {s : AppState} (ok : Bool) (h : SessInv s) :
    SessInv (startRecording ok s) := by
  unfold startRecording
  split
  · exact h
  split
  · exact h
  split
  · exact inv_same_core h rfl rfl rfl rfl rfl rfl rfl rfl (Or.inl rfl)
  · exact inv_same_core h rfl rfl rfl rfl rfl rfl rfl rfl (Or.inl rfl)

lemma inv_stopRecording {s : AppState} (h : SessInv s) : SessInv (stopRecording s) := by
  unfold stopRecording
  split
  · exact h
  split
  · exact inv_recStop h
  · exact h

lemma inv_recorderTimeout {s : AppState} (h : SessInv s) : SessInv (recorderTimeout s) := by
  unfold recorderTimeout
  split
  · exact inv_recStop h
  · exact h

lemma inv_dataAvailable {s : AppState} (c : String) (h : SessInv s) :
    SessInv (dataAvailable c s) := by
  unfold dataAvailable
  split
  · exact inv_same_core h rfl rfl rfl rfl rfl rfl rfl rfl (Or.inl rfl)
  · exact h

lemma inv_setUserInput {s : AppState} (t : String) (h : SessInv s) :
    SessInv (setUserInput t s) := by
  unfold setUserInput
  exact inv_same_core h rfl rfl rfl rfl rfl rfl rfl rfl (Or.inl rfl)

lemma inv_launch {s : AppState} (h : SessInv s) (hls : s.turnState = TURN.LISTENING)
    (x : Pending) (hx : pendingToken x = some (s.activeSubmitToken + 1))
    (hxf : finalReq x = false) :
    SessInv { s with turnState := TURN.SUBMITTING,
                     activeSubmitToken := s.activeSubmitToken + 1,
                     pending := x :: s.pending } := by
  obtain ⟨hlen, _, hnfp, hsl⟩ := h.listening hls
  refine ⟨?_, ?_, ?_, ?_, ?_, ?_, ?_, ?_, ?_⟩
  · show s.questions = s.editingQuestions
    exact h.qeq
  · show s.questions.length = 3
    exact h.qlen
  · show boundL (s.activeSubmitToken + 1) (x :: s.pending)
    exact boundL_cons (fun t ht => by rw [hx] at ht; injection ht with ht; omega)
      (boundL_succ h.bound)
  · show s.currentIndex ≤ 2
    exact h.idx3
  · intro hA; exact TURN.noConfusion hA
  · intro hL; exact TURN.noConfusion hL
  · intro _
    refine ⟨?_, ?_, Or.inl ⟨?_, ?_⟩⟩
    · show s.allQA.length = s.currentIndex
      exact hlen
    · show nfpL (x :: s.pending)
      exact nfpL_cons hxf hnfp
    · show countA (s.activeSubmitToken + 1) (x :: s.pending) = 1
      rw [countA_cons, if_pos hx, countA_eq_zero.mp (napL_of_boundL_succ h.bound)]
    · show s.speechSlot = none ∨ s.speechSlot = some SpeechCb.noCb
      exact hsl
  · intro hF; exact TURN.noConfusion hF
  · intro hD; exact TURN.noConfusion hD

lemma get_q {l : List Question} {i : Nat} (hl : l.length = 3) (hi : i ≤ 2) :
    l.get? i = some (l.get ⟨i, by omega⟩) :=
  List.get?_eq_get _

lemma submitSingleAnswer_some {s : AppState} {q : Question} (a src : String) (tk : Nat)
    (hq : s.questions.get? s.currentIndex = some q) :
    submitSingleAnswer a src tk s =
      { s with pending := Pending.respond tk q a src :: s.pending } := by
  unfold submitSingleAnswer
  rw [hq]

lemma inv_submitVoiceBlob {s : AppState} (blob : String) (h : SessInv s) :
    SessInv (submitVoiceBlob blob s) := by
  unfold submitVoiceBlob
  split
  · exact h
  · next hls =>
    push_neg at hls
    exact inv_launch h hls _ rfl rfl

lemma inv_launch_submit {s : AppState} (h : SessInv s) (hls : s.turnState = TURN.LISTENING)
    (a src : String) :
    SessInv (submitSingleAnswer a src (s.activeSubmitToken + 1)
      { s with turnState := TURN.SUBMITTING,
               activeSubmitToken := s.activeSubmitToken + 1 }) := by
  have hq : ({ s with
      turnState := TURN.SUBMITTING,
      activeSubmitToken := s.activeSubmitToken + 1 } : AppState).questions.get?
      ({ s with
        turnState := TURN.SUBMITTING,
        activeSubmitToken := s.activeSubmitToken + 1 } : AppState).currentIndex =
      some (s.questions.get ⟨s.currentIndex, by rw [h.qlen]; have := h.idx3; omega⟩) :=
    List.get?_eq_get _
  rw [submitSingleAnswer_some a src _ hq]
  exact inv_launch h hls _ rfl rfl

lemma inv_handleTextSubmit {s : AppState} (h : SessInv s) : SessInv (handleTextSubmit s) := by
  unfold handleTextSubmit
  split
  · exact h
  · next hls =>
    push_neg at hls
    split
    · exact inv_stopAnyRecording h
    · have h1 : SessInv (stopAnyRecording s) := inv_stopAnyRecording h
      have hls1 : (stopAnyRecording s).turnState = TURN.LISTENING := by
        rcases stopAnyRecording_cases s with hc | hc <;> rw [hc] <;> exact hls
      exact inv_launch_submit h1 hls1 _ _

lemma inv_handleSkipClick {s : AppState} (h : SessInv s) : SessInv (handleSkipClick s) := by
  unfold handleSkipClick
  split
  · exact h
  · next hls =>
    push_neg at hls
    have h1 : SessInv (stopAnyRecording s) := inv_stopAnyRecording h
    have hls1 : (stopAnyRecording s).turnState = TURN.LISTENING := by
      rcases stopAnyRecording_cases s with hc | hc <;> rw [hc] <;> exact hls
    split
    · next heq =>
      exfalso
      simp [get_q h1.qlen h1.idx3] at heq
      have e1 := h1.qlen
      have e2 := h1.idx3
      omega
    · next q heq =>
      exact inv_launch h1 hls1 _ rfl rfl

lemma inv_recorderOnStop {s : AppState} (h : SessInv s) : SessInv (recorderOnStop s) := by
  unfold recorderOnStop
  have h1 : SessInv { s with isRecording := false } :=
    inv_same_core h rfl rfl rfl rfl rfl rfl rfl rfl (Or.inl rfl)
  split
  · exact h1
  · exact inv_submitVoiceBlob _ h1

lemma inv_removed {s : AppState} {x : Pending} {l1 l2 : List Pending} (h : SessInv s)
    (hp : s.pending = l1 ++ x :: l2)
    (hstale : pendingToken x ≠ some s.activeSubmitToken)
    (hxf : finalReq x = false) :
    SessInv { s with pending := l1 ++ l2 } := by
  have hnap : NAP s → napL s.activeSubmitToken (l1 ++ l2) := by
    intro hn
    unfold NAP at hn
    rw [hp] at hn
    exact napL_removed hn
  have hnfp : NFP s → nfpL (l1 ++ l2) := by
    intro hn
    unfold NFP at hn
    rw [hp] at hn
    exact nfpL_removed hn
  have hone : oneActive s → countA s.activeSubmitToken (l1 ++ l2) = 1 := by
    intro hn
    unfold oneActive at hn
    rw [hp, countA_removed, if_neg hstale] at hn
    omega
  have honeF : oneFinal s → countF (l1 ++ l2) = 1 := by
    intro hn
    unfold oneFinal at hn
    rw [hp, countF_removed] at hn
    simp [hxf] at hn
    exact hn
  refine ⟨h.qeq, h.qlen, ?_, h.idx3, ?_, ?_, ?_, ?_, ?_⟩
  · show boundL s.activeSubmitToken (l1 ++ l2)
    have hb := h.bound
    unfold tokBound at hb
    rw [hp] at hb
    exact boundL_removed hb
  · intro hA
    obtain ⟨a1, a2, a3, a4, a5⟩ := h.asking hA
    exact ⟨a1, hnap a2, hnfp a3, a4, a5⟩
  · intro hL
    obtain ⟨a1, a2, a3, a4⟩ := h.listening hL
    exact ⟨a1, hnap a2, hnfp a3, a4⟩
  · intro hS
    obtain ⟨a1, a2, a3⟩ := h.submitting hS
    refine ⟨a1, hnfp a2, ?_⟩
    rcases a3 with ⟨b1, b2⟩ | ⟨b1, b2, b3⟩
    · exact Or.inl ⟨hone b1, b2⟩
    · exact Or.inr ⟨hnap b1, b2, b3⟩
  · intro hF
    obtain ⟨a1, a2⟩ := h.fdbk hF
    refine ⟨hnap a1, ?_⟩
    rcases a2 with ⟨b1, b2, b3, b4⟩ | ⟨b1, b2, b3, b4⟩
    · exact Or.inl ⟨b1, hnfp b2, b3, b4⟩
    · exact Or.inr ⟨b1, b2, b3, honeF b4⟩
  · intro hD
    obtain ⟨a1, a2, a3, a4⟩ := h.done hD
    exact ⟨a1, hnap a2, hnfp a3, a4⟩

lemma inv_askQuestion {s : AppState} (index : Nat)
    (hq : s.questions = s.editingQuestions) (hql : s.questions.length = 3)
    (hb : boundL s.activeSubmitToken s.pending)
    (hnfp : nfpL s.pending)
    (hidx : index ≤ 2)
    (hlen : s.allQA.length = index)
    (hsl : slotLN s) :
    SessInv (askQuestion index s) := by
  unfold askQuestion
  have hql' : s.editingQuestions.length = 3 := by rw [← hq]; exact hql
  split
  · next heq =>
    exfalso
    simp [get_q hql' hidx] at heq
    omega
  · next q heq =>
    unfold speakListening
    split
    · next hav =>
      refine ⟨?_, ?_, ?_, ?_, ?_, ?_, ?_, ?_, ?_⟩
      · show s.questions = s.editingQuestions
        exact hq
      · show s.questions.length = 3
        exact hql
      · show boundL (s.activeSubmitToken + 1) s.pending
        exact boundL_succ hb
      · show index ≤ 2
        exact hidx
      · intro _
        refine ⟨hlen, ?_, hnfp, ?_, rfl⟩
        · show napL (s.activeSubmitToken + 1) s.pending
          exact napL_of_boundL_succ hb
        · show s.synthAvailable = true
          exact hav
      · intro hL; exact TURN.noConfusion hL
      · intro hS; exact TURN.noConfusion hS
      · intro hF; exact TURN.noConfusion hF
      · intro hD; exact TURN.noConfusion hD
    · refine ⟨?_, ?_, ?_, ?_, ?_, ?_, ?_, ?_, ?_⟩
      · show s.questions = s.editingQuestions
        exact hq
      · show s.questions.length = 3
        exact hql
      · show boundL (s.activeSubmitToken + 1) s.pending
        exact boundL_succ hb
      · show index ≤ 2
        exact hidx
      · intro hA; exact TURN.noConfusion hA
      · intro _
        refine ⟨hlen, ?_, hnfp, ?_⟩
        · show napL (s.activeSubmitToken + 1) s.pending
          exact napL_of_boundL_succ hb
        · show s.speechSlot = none ∨ s.speechSlot = some SpeechCb.noCb
          exact hsl
      · intro hS; exact TURN.noConfusion hS
      · intro hF; exact TURN.noConfusion hF
      · intro hD; exact TURN.noConfusion hD

lemma inv_finish {s : AppState} (qa : List QARecord)
    (hq : s.questions = s.editingQuestions) (hql : s.questions.length = 3)
    (hb : boundL s.activeSubmitToken s.pending)
    (hnap : napL s.activeSubmitToken s.pending)
    (hnfp : nfpL s.pending)
    (hts : s.turnState = TURN.FEEDBACK)
    (hidx2 : s.currentIndex = 2)
    (hlen : s.allQA.length = 3)
    (hsl : slotLN s) :
    SessInv (finishInterview qa s) := by
  unfold finishInterview
  refine ⟨?_, ?_, ?_, ?_, ?_, ?_, ?_, ?_, ?_⟩
  · show s.questions = s.editingQuestions
    exact hq
  · show s.questions.length = 3
    exact hql
  · show boundL s.activeSubmitToken (Pending.evaluate qa :: s.pending)
    exact boundL_cons (by simp [pendingToken]) hb
  · show s.currentIndex ≤ 2
    omega
  · intro hA
    rw [show ({ s with pending := Pending.evaluate qa :: s.pending } : AppState).turnState
      = s.turnState from rfl, hts] at hA
    exact TURN.noConfusion hA
  · intro hL
    rw [show ({ s with pending := Pending.evaluate qa :: s.pending } : AppState).turnState
      = s.turnState from rfl, hts] at hL
    exact TURN.noConfusion hL
  · intro hS
    rw [show ({ s with pending := Pending.evaluate qa :: s.pending } : AppState).turnState
      = s.turnState from rfl, hts] at hS
    exact TURN.noConfusion hS
  · intro _
    refine ⟨?_, Or.inr ⟨hidx2, hlen, hsl, ?_⟩⟩
    · show napL s.activeSubmitToken (Pending.evaluate qa :: s.pending)
      exact napL_cons (by simp [pendingToken]) hnap
    · show countF (Pending.evaluate qa :: s.pending) = 1
      rw [countF_cons, countF_eq_zero.mp hnfp]
      simp [finalReq]
  · intro hD
    rw [show ({ s with pending := Pending.evaluate qa :: s.pending } : AppState).turnState
      = s.turnState from rfl, hts] at hD
    exact TURN.noConfusion hD

lemma inv_runAdvance {s : AppState} (qa : List QARecord) (i : Nat)
    (hi : i = s.currentIndex)
    (hq : s.questions = s.editingQuestions) (hql : s.questions.length = 3)
    (hb : boundL s.activeSubmitToken s.pending)
    (hnap : napL s.activeSubmitToken s.pending)
    (hnfp : nfpL s.pending)
    (hts : s.turnState = TURN.FEEDBACK)
    (hsl : slotLN s)
    (hlen : s.allQA.length = s.currentIndex + 1)
    (hidx : s.currentIndex ≤ 2) :
    SessInv (runAdvance qa i 3 s) := by
  subst hi
  unfold runAdvance
  split
  · next hlt =>
    exact inv_askQuestion (s.currentIndex + 1) hq hql hb hnfp (by omega) hlen hsl
  · next hge =>
    have hidx2 : s.currentIndex = 2 := by omega
    exact inv_finish qa hq hql hb hnap hnfp hts hidx2 (by omega) hsl

lemma submitting_of_active {s : AppState} {x : Pending} (h : SessInv s)
    (hx : x ∈ s.pending) (ht : pendingToken x = some s.activeSubmitToken) :
    s.turnState = TURN.SUBMITTING ∧ s.allQA.length = s.currentIndex ∧ nfpL s.pending ∧
      oneActive s ∧ slotLN s := by
  cases hts : s.turnState
  case ASKING =>
    obtain ⟨_, hnap, _, _, _⟩ := h.asking hts
    exact absurd ht (hnap x hx)
  case LISTENING =>
    obtain ⟨_, hnap, _, _⟩ := h.listening hts
    exact absurd ht (hnap x hx)
  case SUBMITTING =>
    obtain ⟨hlen, hnfp, hd⟩ := h.submitting hts
    rcases hd with ⟨b1, b2⟩ | ⟨b1, _, _⟩
    · exact ⟨rfl, hlen, hnfp, b1, b2⟩
    · exact absurd ht (b1 x hx)
  case FEEDBACK =>
    obtain ⟨hnap, _⟩ := h.fdbk hts
    exact absurd ht (hnap x hx)
  case DONE =>
    obtain ⟨_, hnap, _, _⟩ := h.done hts
    exact absurd ht (hnap x hx)

lemma feedback_of_final {s : AppState} {x : Pending} (h : SessInv s)
    (hx : x ∈ s.pending) (hf : finalReq x = true) :
    s.turnState = TURN.FEEDBACK ∧ s.currentIndex = 2 ∧ s.allQA.length = 3 ∧
      slotLN s ∧ oneFinal s ∧ NAP s := by
  cases hts : s.turnState
  case ASKING =>
    obtain ⟨_, _, hnfp, _, _⟩ := h.asking hts
    rw [hnfp x hx] at hf
    exact Bool.noConfusion hf
  case LISTENING =>
    obtain ⟨_, _, hnfp, _⟩ := h.listening hts
    rw [hnfp x hx] at hf
    exact Bool.noConfusion hf
  case SUBMITTING =>
    obtain ⟨_, hnfp, _⟩ := h.submitting hts
    rw [hnfp x hx] at hf
    exact Bool.noConfusion hf
  case FEEDBACK =>
    obtain ⟨hnap, hd⟩ := h.fdbk hts
    rcases hd with ⟨_, hnfp, _, _⟩ | ⟨b1, b2, b3, b4⟩
    · rw [hnfp x hx] at hf
      exact Bool.noConfusion hf
    · exact ⟨rfl, b1, b2, b3, b4, hnap⟩
  case DONE =>
    obtain ⟨_, _, hnfp, _⟩ := h.done hts
    rw [hnfp x hx] at hf
    exact Bool.noConfusion hf

lemma nap_after_consume {s : AppState} {x : Pending} {l1 l2 : List Pending}
    (hone : oneActive s) (hp : s.pending = l1 ++ x :: l2)
    (hx : pendingToken x = some s.activeSubmitToken) :
    napL s.activeSubmitToken (l1 ++ l2) := by
  unfold oneActive at hone
  rw [hp, countA_removed, if_pos hx] at hone
  exact countA_eq_zero.mpr (by omega)

lemma nfp_after_consume {s : AppState} {x : Pending} {l1 l2 : List Pending}
    (hone : oneFinal s) (hp : s.pending = l1 ++ x :: l2)
    (hx : finalReq x = true) :
    nfpL (l1 ++ l2) := by
  unfold oneFinal at hone
  rw [hp, countF_removed, if_pos hx] at hone
  exact countF_eq_zero.mpr (by omega)

lemma inv_success_tail (s : AppState) (rec : QARecord) (m : String)
    (hq : s.questions = s.editingQuestions) (hql : s.questions.length = 3)
    (hb : boundL s.activeSubmitToken s.pending)
    (hidx : s.currentIndex ≤ 2)
    (hlen : s.allQA.length = s.currentIndex)
    (hnap : napL s.activeSubmitToken s.pending)
    (hnfp : nfpL s.pending)
    (hsl : slotLN s) :
    SessInv (speakAdvance (s.allQA ++ [rec])
      { s with allQA := s.allQA ++ [rec], turnState := TURN.FEEDBACK,
               agentMessage := m, userInput := "" }) := by
  unfold speakAdvance
  split
  · next hav =>
    refine ⟨?_, ?_, ?_, ?_, ?_, ?_, ?_, ?_, ?_⟩
    · show s.questions = s.editingQuestions
      exact hq
    · show s.questions.length = 3
      exact hql
    · show boundL s.activeSubmitToken s.pending
      exact hb
    · show s.currentIndex ≤ 2
      exact hidx
    · intro hA; exact TURN.noConfusion hA
    · intro hL; exact TURN.noConfusion hL
    · intro hS; exact TURN.noConfusion hS
    · intro _
      refine ⟨hnap, Or.inl ⟨?_, hnfp, ?_, ?_⟩⟩
      · show (s.allQA ++ [rec]).length = s.currentIndex + 1
        simp [hlen]
      · show s.synthAvailable = true
        exact hav
      · show some (SpeechCb.advance (s.allQA ++ [rec]) s.currentIndex s.questions.length)
          = some (SpeechCb.advance (s.allQA ++ [rec]) s.currentIndex 3)
        rw [hql]
    · intro hD; exact TURN.noConfusion hD
  · next hav =>
    show SessInv (runAdvance (s.allQA ++ [rec]) s.currentIndex s.questions.length
      { s with allQA := s.allQA ++ [rec], turnState := TURN.FEEDBACK,
               agentMessage := m, userInput := "" })
    rw [hql]
    apply inv_runAdvance
    · rfl
    · exact hq
    · exact hql
    · exact hb
    · exact hnap
    · exact hnfp
    · rfl
    · exact hsl
    · show (s.allQA ++ [rec]).length = s.currentIndex + 1
      simp [hlen]
    · exact hidx

lemma inv_fail_tail (s : AppState) (m : String)
    (hq : s.questions = s.editingQuestions) (hql : s.questions.length = 3)
    (hb : boundL s.activeSubmitToken s.pending)
    (hidx : s.currentIndex ≤ 2)
    (hlen : s.allQA.length = s.currentIndex)
    (hnap : napL s.activeSubmitToken s.pending)
    (hnfp : nfpL s.pending)
    (hsl : slotLN s) :
    SessInv (speakNoCb { s with agentMessage := m, turnState := TURN.LISTENING }) := by
  unfold speakNoCb
  split
  · refine ⟨?_, ?_, ?_, ?_, ?_, ?_, ?_, ?_, ?_⟩
    · show s.questions = s.editingQuestions
      exact hq
    · show s.questions.length = 3
      exact hql
    · show boundL s.activeSubmitToken s.pending
      exact hb
    · show s.currentIndex ≤ 2
      exact hidx
    · intro hA; exact TURN.noConfusion hA
    · intro _
      exact ⟨hlen, hnap, hnfp, Or.inr rfl⟩
    · intro hS; exact TURN.noConfusion hS
    · intro hF; exact TURN.noConfusion hF
    · intro hD; exact TURN.noConfusion hD
  · refine ⟨?_, ?_, ?_, ?_, ?_, ?_, ?_, ?_, ?_⟩
    · show s.questions = s.editingQuestions
      exact hq
    · show s.questions.length = 3
      exact hql
    · show boundL s.activeSubmitToken s.pending
      exact hb
    · show s.currentIndex ≤ 2
      exact hidx
    · intro hA; exact TURN.noConfusion hA
    · intro _
      refine ⟨hlen, hnap, hnfp, ?_⟩
      show s.speechSlot = none ∨ s.speechSlot = some SpeechCb.noCb
      exact hsl
    · intro hS; exact TURN.noConfusion hS
    · intro hF; exact TURN.noConfusion hF
    · intro hD; exact TURN.noConfusion hD

lemma mkInv_asking {s' : AppState}
    (hq : s'.questions = s'.editingQuestions) (hql : s'.questions.length = 3)
    (hb : tokBound s') (hidx : s'.currentIndex ≤ 2)
    (hts : s'.turnState = TURN.ASKING)
    (hlen : s'.allQA.length = s'.currentIndex) (hnap : NAP s') (hnfp : NFP s')
    (hav : s'.synthAvailable = true) (hslot : s'.speechSlot = some SpeechCb.toListening) :
    SessInv s' :=
  ⟨hq, hql, hb, hidx,
   fun _ => ⟨hlen, hnap, hnfp, hav, hslot⟩,
   fun hx => absurd (hts.symm.trans hx) (by decide),
   fun hx => absurd (hts.symm.trans hx) (by decide),
   fun hx => absurd (hts.symm.trans hx) (by decide),
   fun hx => absurd (hts.symm.trans hx) (by decide)⟩

lemma mkInv_listening {s' : AppState}
    (hq : s'.questions = s'.editingQuestions) (hql : s'.questions.length = 3)
    (hb : tokBound s') (hidx : s'.currentIndex ≤ 2)
    (hts : s'.turnState = TURN.LISTENING)
    (hlen : s'.allQA.length = s'.currentIndex) (hnap : NAP s') (hnfp : NFP s')
    (hsl : slotLN s') :
    SessInv s' :=
  ⟨hq, hql, hb, hidx,
   fun hx => absurd (hts.symm.trans hx) (by decide),
   fun _ => ⟨hlen, hnap, hnfp, hsl⟩,
   fun hx => absurd (hts.symm.trans hx) (by decide),
   fun hx => absurd (hts.symm.trans hx) (by decide),
   fun hx => absurd (hts.symm.trans hx) (by decide)⟩

lemma mkInv_submitting {s' : AppState}
    (hq : s'.questions = s'.editingQuestions) (hql : s'.questions.length = 3)
    (hb : tokBound s') (hidx : s'.currentIndex ≤ 2)
    (hts : s'.turnState = TURN.SUBMITTING)
    (hlen : s'.allQA.length = s'.currentIndex) (hnfp : NFP s')
    (hd : (oneActive s' ∧ slotLN s') ∨
      (NAP s' ∧ s'.synthAvailable = true ∧ s'.speechSlot = some SpeechCb.toListening)) :
    SessInv s' :=
  ⟨hq, hql, hb, hidx,
   fun hx => absurd (hts.symm.trans hx) (by decide),
   fun hx => absurd (hts.symm.trans hx) (by decide),
   fun _ => ⟨hlen, hnfp, hd⟩,
   fun hx => absurd (hts.symm.trans hx) (by decide),
   fun hx => absurd (hts.symm.trans hx) (by decide)⟩

lemma mkInv_feedback {s' : AppState}
    (hq : s'.questions = s'.editingQuestions) (hql : s'.questions.length = 3)
    (hb : tokBound s') (hidx : s'.currentIndex ≤ 2)
    (hts : s'.turnState = TURN.FEEDBACK)
    (hnap : NAP s')
    (hd : (s'.allQA.length = s'.currentIndex + 1 ∧ NFP s' ∧ s'.synthAvailable = true ∧
        s'.speechSlot = some (SpeechCb.advance s'.allQA s'.currentIndex 3)) ∨
      (s'.currentIndex = 2 ∧ s'.allQA.length = 3 ∧ slotLN s' ∧ oneFinal s')) :
    SessInv s' :=
  ⟨hq, hql, hb, hidx,
   fun hx => absurd (hts.symm.trans hx) (by decide),
   fun hx => absurd (hts.symm.trans hx) (by decide),
   fun hx => absurd (hts.symm.trans hx) (by decide),
   fun _ => ⟨hnap, hd⟩,
   fun hx => absurd (hts.symm.trans hx) (by decide)⟩

lemma mkInv_done {s' : AppState}
    (hq : s'.questions = s'.editingQuestions) (hql : s'.questions.length = 3)
    (hb : tokBound s') (hidx : s'.currentIndex ≤ 2)
    (hts : s'.turnState = TURN.DONE)
    (hlen : s'.allQA.length = 3) (hnap : NAP s') (hnfp : NFP s') (hsl : slotLN s') :
    SessInv s' :=
  ⟨hq, hql, hb, hidx,
   fun hx => absurd (hts.symm.trans hx) (by decide),
   fun hx => absurd (hts.symm.trans hx) (by decide),
   fun hx => absurd (hts.symm.trans hx) (by decide),
   fun hx => absurd (hts.symm.trans hx) (by decide),
   fun _ => ⟨hlen, hnap, hnfp, hsl⟩⟩

lemma inv_resolveRespond {s : AppState} (tok : Nat) (q : Question) (a src : String)
    {l1 l2 : List Pending} (resp : Option RespondData) (h : SessInv s)
    (hp : s.pending = l1 ++ Pending.respond tok q a src :: l2) :
    SessInv (resolveRespond tok q a src resp { s with pending := l1 ++ l2 }) := by
  by_cases ht : s.activeSubmitToken = tok
  · subst ht
    have hmem : Pending.respond s.activeSubmitToken q a src ∈ s.pending := by
      rw [hp]
      exact List.mem_append_right _ (List.mem_cons_self _ _)
    obtain ⟨hts, hlen, hnfp, hone, hsl⟩ := submitting_of_active h hmem rfl
    have hnap2 : napL s.activeSubmitToken (l1 ++ l2) := nap_after_consume hone hp rfl
    have hnfp2 : nfpL (l1 ++ l2) := by
      rw [hp] at hnfp
      exact nfpL_removed hnfp
    have hb2 : boundL s.activeSubmitToken (l1 ++ l2) := by
      have hb := h.bound
      unfold tokBound at hb
      rw [hp] at hb
      exact boundL_removed hb
    cases resp with
    | some d =>
      simp only [resolveRespond]
      split
      · next hc => exact absurd rfl hc
      · exact inv_success_tail { s with pending := l1 ++ l2 } _ _
          h.qeq h.qlen hb2 h.idx3 hlen hnap2 hnfp2 hsl
    | none =>
      simp only [resolveRespond]
      split
      · next hc => exact absurd rfl hc
      · exact inv_fail_tail { s with pending := l1 ++ l2 } _
          h.qeq h.qlen hb2 h.idx3 hlen hnap2 hnfp2 hsl
  · have hstale : pendingToken (Pending.respond tok q a src) ≠ some s.activeSubmitToken := by
      intro hc
      injection hc with hc
      exact ht hc.symm
    have hrem : SessInv { s with pending := l1 ++ l2 } := inv_removed h hp hstale rfl
    cases resp with
    | some d =>
      simp only [resolveRespond]
      split
      · exact hrem
      · next hc => exact absurd (fun he => ht he) hc
    | none =>
      simp only [resolveRespond]
      split
      · exact hrem
      · next hc => exact absurd (fun he => ht he) hc

lemma inv_resolveSkip {s : AppState} (tok : Nat) (q : Question)
    {l1 l2 : List Pending} (resp : Option RespondData) (h : SessInv s)
    (hp : s.pending = l1 ++ Pending.skip tok q :: l2) :
    SessInv (resolveSkip tok q resp { s with pending := l1 ++ l2 }) := by
  by_cases ht : s.activeSubmitToken = tok
  · subst ht
    have hmem : Pending.skip s.activeSubmitToken q ∈ s.pending := by
      rw [hp]
      exact List.mem_append_right _ (List.mem_cons_self _ _)
    obtain ⟨hts, hlen, hnfp, hone, hsl⟩ := submitting_of_active h hmem rfl
    have hnap2 : napL s.activeSubmitToken (l1 ++ l2) := nap_after_consume hone hp rfl
    have hnfp2 : nfpL (l1 ++ l2) := by
      rw [hp] at hnfp
      exact nfpL_removed hnfp
    have hb2 : boundL s.activeSubmitToken (l1 ++ l2) := by
      have hb := h.bound
      unfold tokBound at hb
      rw [hp] at hb
      exact boundL_removed hb
    cases resp with
    | some d =>
      simp only [resolveSkip]
      split
      · next hc => exact absurd rfl hc
      · exact inv_success_tail { s with pending := l1 ++ l2 } _ _
          h.qeq h.qlen hb2 h.idx3 hlen hnap2 hnfp2 hsl
    | none =>
      simp only [resolveSkip]
      split
      · next hc => exact absurd rfl hc
      · exact inv_fail_tail { s with pending := l1 ++ l2 } _
          h.qeq h.qlen hb2 h.idx3 hlen hnap2 hnfp2 hsl
  · have hstale : pendingToken (Pending.skip tok q) ≠ some s.activeSubmitToken := by
      intro hc
      injection hc with hc
      exact ht hc.symm
    have hrem : SessInv { s with pending := l1 ++ l2 } := inv_removed h hp hstale rfl
    cases resp with
    | some d =>
      simp only [resolveSkip]
      split
      · exact hrem
      · next hc => exact absurd (fun he => ht he) hc
    | none =>
      simp only [resolveSkip]
      split
      · exact hrem
      · next hc => exact absurd (fun he => ht he) hc

lemma inv_resolveTranscribe {s : AppState} (tok : Nat) (blob : String)
    {l1 l2 : List Pending} (resp : Option String) (h : SessInv s)
    (hp : s.pending = l1 ++ Pending.transcribe tok blob :: l2) :
    SessInv (resolveTranscribe tok resp { s with pending := l1 ++ l2 }) := by
  by_cases ht : s.activeSubmitToken = tok
  · subst ht
    have hmem : Pending.transcribe s.activeSubmitToken blob ∈ s.pending := by
      rw [hp]
      exact List.mem_append_right _ (List.mem_cons_self _ _)
    obtain ⟨hts, hlen, hnfp, hone, hsl⟩ := submitting_of_active h hmem rfl
    have hnap2 : napL s.activeSubmitToken (l1 ++ l2) := nap_after_consume hone hp rfl
    have hnfp2 : nfpL (l1 ++ l2) := by
      rw [hp] at hnfp
      exact nfpL_removed hnfp
    have hb2 : boundL s.activeSubmitToken (l1 ++ l2) := by
      have hb := h.bound
      unfold tokBound at hb
      rw [hp] at hb
      exact boundL_removed hb
    cases resp with
    | some text =>
      simp only [resolveTranscribe]
      split
      · next hc => exact absurd rfl hc
      · split
        · unfold speakListening
          split
          · next hav =>
            apply mkInv_submitting
            · exact h.qeq
            · exact h.qlen
            · exact hb2
            · exact h.idx3
            · exact hts
            · exact hlen
            · exact hnfp2
            · exact Or.inr ⟨hnap2, hav, rfl⟩
          · apply mkInv_listening
            · exact h.qeq
            · exact h.qlen
            · exact hb2
            · exact h.idx3
            · rfl
            · exact hlen
            · exact hnap2
            · exact hnfp2
            · exact hsl
        · unfold submitSingleAnswer
          split
          · next heq =>
            exfalso
            rw [List.get?_eq_none] at heq
            have hle : s.questions.length ≤ s.currentIndex := heq
            have e1 := h.qlen
            have e2 := h.idx3
            omega
          · next q2 heq =>
            apply mkInv_submitting
            · exact h.qeq
            · exact h.qlen
            · show boundL s.activeSubmitToken
                (Pending.respond s.activeSubmitToken q2 (jsTrim text) "voice" :: (l1 ++ l2))
              exact boundL_cons (fun t ht2 => by injection ht2 with ht2; omega) hb2
            · exact h.idx3
            · exact hts
            · exact hlen
            · show nfpL (Pending.respond s.activeSubmitToken q2 (jsTrim text) "voice" :: (l1 ++ l2))
              exact nfpL_cons rfl hnfp2
            · refine Or.inl ⟨?_, hsl⟩
              show countA s.activeSubmitToken
                (Pending.respond s.activeSubmitToken q2 (jsTrim text) "voice" :: (l1 ++ l2)) = 1
              rw [countA_cons,
                if_pos (show pendingToken (Pending.respond s.activeSubmitToken q2 (jsTrim text)
                  "voice") = some s.activeSubmitToken from rfl),
                countA_eq_zero.mp hnap2]
    | none =>
      simp only [resolveTranscribe]
      split
      · next hc => exact absurd rfl hc
      · exact inv_fail_tail { s with pending := l1 ++ l2 } _
          h.qeq h.qlen hb2 h.idx3 hlen hnap2 hnfp2 hsl
  · have hstale : pendingToken (Pending.transcribe tok blob) ≠ some s.activeSubmitToken := by
      intro hc
      injection hc with hc
      exact ht hc.symm
    have hrem : SessInv { s with pending := l1 ++ l2 } := inv_removed h hp hstale rfl
    cases resp with
    | some text =>
      simp only [resolveTranscribe]
      split
      · exact hrem
      · next hc => exact absurd (fun he => ht he) hc
    | none =>
      simp only [resolveTranscribe]
      split
      · exact hrem
      · next hc => exact absurd (fun he => ht he) hc

lemma inv_resolveEvaluate {s : AppState} (qa : List QARecord)
    {l1 l2 : List Pending} (resp : Option (Scores × Feedback)) (h : SessInv s)
    (hp : s.pending = l1 ++ Pending.evaluate qa :: l2) :
    SessInv (resolveEvaluate resp { s with pending := l1 ++ l2 }) := by
  have hmem : Pending.evaluate qa ∈ s.pending := by
    rw [hp]
    exact List.mem_append_right _ (List.mem_cons_self _ _)
  obtain ⟨hts, hidx2, hlen3, hsl, honeF, hnap⟩ := feedback_of_final h hmem rfl
  have hnfp2 : nfpL (l1 ++ l2) := nfp_after_consume honeF hp rfl
  have hnap2 : napL s.activeSubmitToken (l1 ++ l2) := by
    unfold NAP at hnap
    rw [hp] at hnap
    exact napL_removed hnap
  have hb2 : boundL s.activeSubmitToken (l1 ++ l2) := by
    have hb := h.bound
    unfold tokBound at hb
    rw [hp] at hb
    exact boundL_removed hb
  cases resp with
  | some sf =>
    simp only [resolveEvaluate]
    apply mkInv_feedback
    · exact h.qeq
    · exact h.qlen
    · show boundL s.activeSubmitToken (Pending.save :: (l1 ++ l2))
      exact boundL_cons (by simp [pendingToken]) hb2
    · exact h.idx3
    · exact hts
    · show napL s.activeSubmitToken (Pending.save :: (l1 ++ l2))
      exact napL_cons (by simp [pendingToken]) hnap2
    · refine Or.inr ⟨hidx2, hlen3, hsl, ?_⟩
      show countF (Pending.save :: (l1 ++ l2)) = 1
      rw [countF_cons, countF_eq_zero.mp hnfp2]
      simp [finalReq]
  | none =>
    simp only [resolveEvaluate]
    unfold finishCatch speakNoCb
    split
    · apply mkInv_done
      · exact h.qeq
      · exact h.qlen
      · exact hb2
      · exact h.idx3
      · rfl
      · exact hlen3
      · exact hnap2
      · exact hnfp2
      · exact Or.inr rfl
    · apply mkInv_done
      · exact h.qeq
      · exact h.qlen
      · exact hb2
      · exact h.idx3
      · rfl
      · exact hlen3
      · exact hnap2
      · exact hnfp2
      · exact hsl

lemma inv_resolveSave {s : AppState} {l1 l2 : List Pending} (ok : Bool) (h : SessInv s)
    (hp : s.pending = l1 ++ Pending.save :: l2) :
    SessInv (resolveSave ok { s with pending := l1 ++ l2 }) := by
  have hmem : Pending.save ∈ s.pending := by
    rw [hp]
    exact List.mem_append_right _ (List.mem_cons_self _ _)
  obtain ⟨hts, hidx2, hlen3, hsl, honeF, hnap⟩ := feedback_of_final h hmem rfl
  have hnfp2 : nfpL (l1 ++ l2) := nfp_after_consume honeF hp rfl
  have hnap2 : napL s.activeSubmitToken (l1 ++ l2) := by
    unfold NAP at hnap
    rw [hp] at hnap
    exact napL_removed hnap
  have hb2 : boundL s.activeSubmitToken (l1 ++ l2) := by
    have hb := h.bound
    unfold tokBound at hb
    rw [hp] at hb
    exact boundL_removed hb
  unfold resolveSave finishCatch speakNoCb
  split
  · split
    · apply mkInv_done
      · exact h.qeq
      · exact h.qlen
      · exact hb2
      · exact h.idx3
      · rfl
      · exact hlen3
      · exact hnap2
      · exact hnfp2
      · exact Or.inr rfl
    · apply mkInv_done
      · exact h.qeq
      · exact h.qlen
      · exact hb2
      · exact h.idx3
      · rfl
      · exact hlen3
      · exact hnap2
      · exact hnfp2
      · exact hsl
  · split
    · apply mkInv_done
      · exact h.qeq
      · exact h.qlen
      · exact hb2
      · exact h.idx3
      · rfl
      · exact hlen3
      · exact hnap2
      · exact hnfp2
      · exact Or.inr rfl
    · apply mkInv_done
      · exact h.qeq
      · exact h.qlen
      · exact hb2
      · exact h.idx3
      · rfl
      · exact hlen3
      · exact hnap2
      · exact hnfp2
      · exact hsl

lemma inv_fireSpeech {s : AppState} (cb : SpeechCb) (h : SessInv s)
    (hslot : s.speechSlot = some cb) :
    SessInv (runSpeechCb cb { s with speechSlot := none }) := by
  cases cb with
  | toListening =>
    unfold runSpeechCb runListening
    cases hts : s.turnState with
    | ASKING =>
      obtain ⟨hlen, hnap, hnfp, _, _⟩ := h.asking hts
      apply mkInv_listening
      · exact h.qeq
      · exact h.qlen
      · exact h.bound
      · exact h.idx3
      · rfl
      · exact hlen
      · exact hnap
      · exact hnfp
      · exact Or.inl rfl
    | LISTENING =>
      obtain ⟨_, _, _, hsl⟩ := h.listening hts
      rcases hsl with hsl | hsl <;> rw [hslot] at hsl
      · exact Option.noConfusion hsl
      · exact SpeechCb.noConfusion (Option.some.inj hsl)
    | SUBMITTING =>
      obtain ⟨hlen, hnfp, hd⟩ := h.submitting hts
      rcases hd with ⟨_, hsl⟩ | ⟨hnap, _, _⟩
      · rcases hsl with hsl | hsl <;> rw [hslot] at hsl
        · exact Option.noConfusion hsl
        · exact SpeechCb.noConfusion (Option.some.inj hsl)
      · apply mkInv_listening
        · exact h.qeq
        · exact h.qlen
        · exact h.bound
        · exact h.idx3
        · rfl
        · exact hlen
        · exact hnap
        · exact hnfp
        · exact Or.inl rfl
    | FEEDBACK =>
      obtain ⟨_, hd⟩ := h.fdbk hts
      rcases hd with ⟨_, _, _, hsl⟩ | ⟨_, _, hsl, _⟩
      · rw [hslot] at hsl
        exact SpeechCb.noConfusion (Option.some.inj hsl)
      · rcases hsl with hsl | hsl <;> rw [hslot] at hsl
        · exact Option.noConfusion hsl
        · exact SpeechCb.noConfusion (Option.some.inj hsl)
    | DONE =>
      obtain ⟨_, _, _, hsl⟩ := h.done hts
      rcases hsl with hsl | hsl <;> rw [hslot] at hsl
      · exact Option.noConfusion hsl
      · exact SpeechCb.noConfusion (Option.some.inj hsl)
  | advance qa i n =>
    unfold runSpeechCb
    cases hts : s.turnState with
    | ASKING =>
      obtain ⟨_, _, _, _, hsl⟩ := h.asking hts
      rw [hslot] at hsl
      exact SpeechCb.noConfusion (Option.some.inj hsl)
    | LISTENING =>
      obtain ⟨_, _, _, hsl⟩ := h.listening hts
      rcases hsl with hsl | hsl <;> rw [hslot] at hsl
      · exact Option.noConfusion hsl
      · exact SpeechCb.noConfusion (Option.some.inj hsl)
    | SUBMITTING =>
      obtain ⟨_, _, hd⟩ := h.submitting hts
      rcases hd with ⟨_, hsl⟩ | ⟨_, _, hsl⟩
      · rcases hsl with hsl | hsl <;> rw [hslot] at hsl
        · exact Option.noConfusion hsl
        · exact SpeechCb.noConfusion (Option.some.inj hsl)
      · rw [hslot] at hsl
        exact SpeechCb.noConfusion (Option.some.inj hsl)
    | FEEDBACK =>
      obtain ⟨hnap, hd⟩ := h.fdbk hts
      rcases hd with ⟨hlen, hnfp, _, hsl⟩ | ⟨_, _, hsl, _⟩
      · rw [hslot] at hsl
        have hadv := Option.some.inj hsl
        injection hadv with hqa hi hn
        subst hqa
        subst hi
        subst hn
        apply inv_runAdvance
        · rfl
        · exact h.qeq
        · exact h.qlen
        · exact h.bound
        · exact hnap
        · exact hnfp
        · rfl
        · exact Or.inl rfl
        · exact hlen
        · exact h.idx3
      · rcases hsl with hsl | hsl <;> rw [hslot] at hsl
        · exact Option.noConfusion hsl
        · exact SpeechCb.noConfusion (Option.some.inj hsl)
    | DONE =>
      obtain ⟨_, _, _, hsl⟩ := h.done hts
      rcases hsl with hsl | hsl <;> rw [hslot] at hsl
      · exact Option.noConfusion hsl
      · exact SpeechCb.noConfusion (Option.some.inj hsl)
  | noCb =>
    unfold runSpeechCb
    cases hts : s.turnState with
    | ASKING =>
      obtain ⟨_, _, _, _, hsl⟩ := h.asking hts
      rw [hslot] at hsl
      exact SpeechCb.noConfusion (Option.some.inj hsl)
    | LISTENING =>
      obtain ⟨hlen, hnap, hnfp, _⟩ := h.listening hts
      apply mkInv_listening
      · exact h.qeq
      · exact h.qlen
      · exact h.bound
      · exact h.idx3
      · rfl
      · exact hlen
      · exact hnap
      · exact hnfp
      · exact Or.inl rfl
    | SUBMITTING =>
      obtain ⟨hlen, hnfp, hd⟩ := h.submitting hts
      rcases hd with ⟨hone, _⟩ | ⟨_, _, hsl⟩
      · apply mkInv_submitting
        · exact h.qeq
        · exact h.qlen
        · exact h.bound
        · exact h.idx3
        · rfl
        · exact hlen
        · exact hnfp
        · exact Or.inl ⟨hone, Or.inl rfl⟩
      · rw [hslot] at hsl
        exact SpeechCb.noConfusion (Option.some.inj hsl)
    | FEEDBACK =>
      obtain ⟨hnap, hd⟩ := h.fdbk hts
      rcases hd with ⟨_, _, _, hsl⟩ | ⟨hidx2, hlen3, _, honeF⟩
      · rw [hslot] at hsl
        exact SpeechCb.noConfusion (Option.some.inj hsl)
      · apply mkInv_feedback
        · exact h.qeq
        · exact h.qlen
        · exact h.bound
        · exact h.idx3
        · rfl
        · exact hnap
        · exact Or.inr ⟨hidx2, hlen3, Or.inl rfl, honeF⟩
    | DONE =>
      obtain ⟨hlen3, hnap, hnfp, _⟩ := h.done hts
      apply mkInv_done
      · exact h.qeq
      · exact h.qlen
      · exact h.bound
      · exact h.idx3
      · rfl
      · exact hlen3
      · exact hnap
      · exact hnfp
      · exact Or.inl rfl

/-- Every session step preserves the invariant. -/
lemma inv_step {s s' : AppState} (h : SessInv s) (st : Step s s') : SessInv s' := by
  cases st with
  | textSubmit s => exact inv_handleTextSubmit h
  | skipClick s => exact inv_handleSkipClick h
  | startRec ok s => exact inv_startRecording ok h
  | stopRec s => exact inv_stopRecording h
  | timer s => exact inv_recorderTimeout h
  | chunk c s => exact inv_dataAvailable c h
  | typeInput t s h1 h2 => exact inv_setUserInput t h
  | fireSpeech cb s hsl => exact inv_fireSpeech cb h hsl
  | netTranscribe tok blob l1 l2 resp s hp => exact inv_resolveTranscribe tok blob resp h hp
  | netRespond tok q a src l1 l2 resp s hp => exact inv_resolveRespond tok q a src resp h hp
  | netSkip tok q l1 l2 resp s hp => exact inv_resolveSkip tok q resp h hp
  | netEvaluate qa l1 l2 resp s hp => exact inv_resolveEvaluate qa resp h hp
  | netSave l1 l2 ok s hp => exact inv_resolveSave ok h hp
  | recStopped l1 l2 s hp =>
    exact inv_recorderOnStop (inv_removed h hp (by simp [pendingToken]) rfl)

/-- `startInterview` on a ready pre-interview state establishes the
invariant. -/
lemma inv_start {pre : AppState} (hr : Ready pre) : SessInv (startInterview pre) := by
  obtain ⟨hlen3, hts, hpend, hslot, hrec, hact⟩ := hr
  unfold startInterview
  split
  · next hc => exact absurd hlen3 hc
  · apply inv_askQuestion
    · rfl
    · exact hlen3
    · show boundL pre.activeSubmitToken pre.pending
      rw [hpend]
      exact fun p hp => absurd hp (List.not_mem_nil p)
    · show nfpL pre.pending
      rw [hpend]
      exact fun p hp => absurd hp (List.not_mem_nil p)
    · omega
    · rfl
    · show pre.speechSlot = none ∨ pre.speechSlot = some SpeechCb.noCb
      exact Or.inl hslot

/-- Every state reachable in a session satisfies the invariant. -/
lemma reach_inv {s : AppState} (h : Reach s) : SessInv s := by
  obtain ⟨pre, hr, hstar⟩ := h
  induction hstar with
  | refl => exact inv_start hr
  | tail hbc hstep ih => exact inv_step ih hstep

/-! ## The QA list only grows (append-only records) -/

lemma allQA_recStop (s : AppState) : (recStop s).allQA = s.allQA := by
  unfold recStop
  split <;> rfl

lemma allQA_stopAnyRecording (s : AppState) : (stopAnyRecording s).allQA = s.allQA := by
  unfold stopAnyRecording
  split
  · exact allQA_recStop s
  · rfl

lemma allQA_speakListening (s : AppState) : (speakListening s).allQA = s.allQA := by
  unfold speakListening runListening
  split <;> rfl

lemma allQA_speakNoCb (s : AppState) : (speakNoCb s).allQA = s.allQA := by
  unfold speakNoCb
  split <;> rfl

lemma allQA_askQuestion (i : Nat) (s : AppState) : (askQuestion i s).allQA = s.allQA := by
  unfold askQuestion
  split
  · rfl
  · rw [allQA_speakListening]

lemma allQA_runAdvance (qa : List QARecord) (i n : Nat) (s : AppState) :
    (runAdvance qa i n s).allQA = s.allQA := by
  unfold runAdvance finishInterview
  split
  · exact allQA_askQuestion _ _
  · rfl

lemma allQA_speakAdvance (qa : List QARecord) (s : AppState) :
    (speakAdvance qa s).allQA = s.allQA := by
  unfold speakAdvance
  split
  · rfl
  · exact allQA_runAdvance _ _ _ _

lemma allQA_runSpeechCb (cb : SpeechCb) (s : AppState) :
    (runSpeechCb cb s).allQA = s.allQA := by
  cases cb with
  | toListening => rfl
  | advance qa i n => exact allQA_runAdvance _ _ _ _
  | noCb => rfl

lemma allQA_submitSingleAnswer (a src : String) (tk : Nat) (s : AppState) :
    (submitSingleAnswer a src tk s).allQA = s.allQA := by
  unfold submitSingleAnswer
  split <;> rfl

lemma allQA_submitVoiceBlob (blob : String) (s : AppState) :
    (submitVoiceBlob blob s).allQA = s.allQA := by
  unfold submitVoiceBlob
  split <;> rfl

lemma allQA_recorderOnStop (s : AppState) : (recorderOnStop s).allQA = s.allQA := by
  unfold recorderOnStop
  split
  · rfl
  · rw [allQA_submitVoiceBlob]

lemma allQA_handleTextSubmit (s : AppState) : (handleTextSubmit s).allQA = s.allQA := by
  unfold handleTextSubmit
  split
  · rfl
  · split
    · exact allQA_stopAnyRecording s
    · rw [allQA_submitSingleAnswer]
      exact allQA_stopAnyRecording s

lemma allQA_handleSkipClick (s : AppState) : (handleSkipClick s).allQA = s.allQA := by
  unfold handleSkipClick
  split
  · rfl
  · split
    · exact allQA_stopAnyRecording s
    · exact allQA_stopAnyRecording s

lemma allQA_startRecording (ok : Bool) (s : AppState) :
    (startRecording ok s).allQA = s.allQA := by
  unfold startRecording
  split
  · rfl
  split
  · rfl
  split <;> rfl

lemma allQA_stopRecording (s : AppState) : (stopRecording s).allQA = s.allQA := by
  unfold stopRecording
  split
  · rfl
  split
  · exact allQA_recStop s
  · rfl

lemma allQA_recorderTimeout (s : AppState) : (recorderTimeout s).allQA = s.allQA := by
  unfold recorderTimeout
  split
  · exact allQA_recStop s
  · rfl

lemma allQA_dataAvailable (c : String) (s : AppState) :
    (dataAvailable c s).allQA = s.allQA := by
  unfold dataAvailable
  split <;> rfl

/-- One session step never removes or replaces an accumulated
`QARecord`: the list length is monotone (a step appends at most one
record, and only the respond/skip success paths append one). -/
lemma step_allQA_mono {s s' : AppState} (st : Step s s') :
    s.allQA.length ≤ s'.allQA.length := by
  cases st with
  | textSubmit s => rw [allQA_handleTextSubmit]
  | skipClick s => rw [allQA_handleSkipClick]
  | startRec ok s => rw [allQA_startRecording]
  | stopRec s => rw [allQA_stopRecording]
  | timer s => rw [allQA_recorderTimeout]
  | chunk c s => rw [allQA_dataAvailable]
  | typeInput t s h1 h2 => exact le_refl _
  | fireSpeech cb s hsl => rw [allQA_runSpeechCb]
  | netTranscribe tok blob l1 l2 resp s hp =>
    cases resp with
    | some text =>
      simp only [resolveTranscribe]
      split
      · exact le_refl _
      · split
        · rw [allQA_speakListening]
        · rw [allQA_submitSingleAnswer]
    | none =>
      simp only [resolveTranscribe]
      split
      · exact le_refl _
      · rw [allQA_speakNoCb]
  | netRespond tok q a src l1 l2 resp s hp =>
    cases resp with
    | some d =>
      simp only [resolveRespond]
      split
      · exact le_refl _
      · rw [allQA_speakAdvance]
        simp
    | none =>
      simp only [resolveRespond]
      split
      · exact le_refl _
      · rw [allQA_speakNoCb]
  | netSkip tok q l1 l2 resp s hp =>
    cases resp with
    | some d =>
      simp only [resolveSkip]
      split
      · exact le_refl _
      · rw [allQA_speakAdvance]
        simp
    | none =>
      simp only [resolveSkip]
      split
      · exact le_refl _
      · rw [allQA_speakNoCb]
  | netEvaluate qa l1 l2 resp s hp =>
    cases resp with
    | some sf => exact le_refl _
    | none =>
      simp only [resolveEvaluate]
      unfold finishCatch
      rw [allQA_speakNoCb]
  | netSave l1 l2 ok s hp =>
    unfold resolveSave finishCatch
    split
    · rw [allQA_speakNoCb]
    · rw [allQA_speakNoCb]
  | recStopped l1 l2 s hp => rw [allQA_recorderOnStop]

/-- Along any run of the session, the record list length is monotone. -/
lemma star_allQA_mono {s s' : AppState} (h : Relation.ReflTransGen Step s s') :
    s.allQA.length ≤ s'.allQA.length := by
  induction h with
  | refl => exact le_refl _
  | tail hbc hstep ih => exact le_trans ih (step_allQA_mono hstep)

/-! ## Concrete session fixtures

A concrete ready pre-interview state and a short concrete run used by
witnesses and counterexamples: start, question read aloud, type an
answer, submit it, respond resolves. -/

def q0C : Question :=
  { id := 1, qtype := "technical", text := "Explain hash maps." }

def q1C : Question :=
  { id := 2, qtype := "project", text := "Describe your main project." }

def q2C : Question :=
  { id := 3, qtype := "behavioral", text := "Tell me about a conflict." }

def preC : AppState :=
  { questions := []
    editingQuestions := [q0C, q1C, q2C]
    interviewStarted := false
    currentIndex := 0
    allQA := []
    agentMessage := "Review and tweak the questions, then start the interview."
    userInput := ""
    scores := none
    feedback := none
    isRecording := false
    turnState := TURN.DONE
    activeSubmitToken := 0
    recorderActive := false
    recordedChunks := []
    speechSlot := none
    pending := []
    synthAvailable := true
    alerts := [] }

/-- A pre-interview state whose question set has the wrong length. -/
def preBadC : AppState := { preC with editingQuestions := [q0C] }

/-- A pre-interview state in a browser without speech synthesis. -/
def preD : AppState := { preC with synthAvailable := false }

def dC : RespondData :=
  { reply := "Good answer.", summary := "Hashing basics.", remarks := "Solid.", score := 8 }

def scC : Scores :=
  { communication := 7, technical := 8, roleFit := 6, overall := 7 }

def fbC : Feedback :=
  { summary := "Solid session.", strengths := ["clear"], improvements := ["depth"],
    nextSteps := "Practice more." }

def s0C : AppState := startInterview preC

def s1C : AppState := runSpeechCb SpeechCb.toListening { s0C with speechSlot := none }

def s2C : AppState := setUserInput "I used a hash map to deduplicate records." s1C

def s3C : AppState := handleTextSubmit s2C

def s4C : AppState :=
  resolveRespond 2 q0C "I used a hash map to deduplicate records." "typed" (some dC)
    { s3C with pending := [] }

/-- A recording armed on question 0 of the concrete session. -/
def sRecC : AppState := startRecording true s1C

/-- The concrete session after clicking skip on question 0. -/
def s5C : AppState := handleSkipClick s1C

/-- `In progress, before finalization begins`: the interview is
running, the machine has not returned to `DONE`, and no finalization
round-trip has been launched. -/
def InProgress (s : AppState) : Prop :=
  s.interviewStarted = true ∧ s.turnState ≠ TURN.DONE ∧ ∀ p ∈ s.pending, finalReq p = false

instance (s : AppState) : Decidable (InProgress s) := by
  unfold InProgress
  infer_instance

/-! ## Claims -/

/-- C1: for every submission kind (voice transcription, typed answer,
or skip), if the active submission token has been incremented past the
token the submission captured, the resolution of that stale submission
is a complete no-op on the session state: no `QARecord` is appended,
`turnState` is unchanged, `agentMessage` is unchanged (indeed the
whole state is unchanged), for both success and error responses. -/
theorem C1_stale_resolution_no_mutation :
    ∀ (s : AppState) (tok : Nat) (q : Question) (a src : String)
      (rt : Option String) (rr : Option RespondData) (rs : Option RespondData),
      tok ≠ s.activeSubmitToken →
      resolveTranscribe tok rt s = s ∧
      resolveRespond tok q a src rr s = s ∧
      resolveSkip tok q rs s = s := by
  intro s tok q a src rt rr rs h
  refine ⟨?_, ?_, ?_⟩
  · cases rt <;> simp only [resolveTranscribe] <;>
      rw [if_pos (fun he => h he.symm)]
  · cases rr <;> simp only [resolveRespond] <;>
      rw [if_pos (fun he => h he.symm)]
  · cases rs <;> simp only [resolveSkip] <;>
      rw [if_pos (fun he => h he.symm)]

/-- Witness for C1 at a concrete stale token: the session `s4C` has
active token 2; resolutions that captured token 1 change nothing. -/
theorem C1_stale_resolution_no_mutation_witness :
    resolveTranscribe 1 (some " hello ") s4C = s4C ∧
    resolveRespond 1 q1C "an answer" "typed" (some dC) s4C = s4C ∧
    resolveSkip 1 q1C (some dC) s4C = s4C :=
  C1_stale_resolution_no_mutation s4C 1 q1C "an answer" "typed"
    (some " hello ") (some dC) (some dC) (by decide)

/-- A step that appends the `QARecord` of question index `i`. -/
def appendsAt (i : Nat) (s s' : AppState) : Prop :=
  s.allQA.length = i ∧ s'.allQA.length = i + 1

/-- C2: typed submit, skip click and stop-recording are all rejected
as no-ops outside `LISTENING`; and along any session run, once a step
has appended the record for question index `i`, no later step can
append a record for that index again — at most one `QARecord` is ever
appended per question index. -/
theorem C2_at_most_one_record_per_index :
    (∀ s : AppState, s.turnState ≠ TURN.LISTENING →
      handleTextSubmit s = s ∧ handleSkipClick s = s ∧ stopRecording s = s) ∧
    (∀ (i : Nat) (s1 s2 s3 : AppState), Step s1 s2 → appendsAt i s1 s2 →
      Relation.ReflTransGen Step s2 s3 →
      ¬ ∃ s4, Step s3 s4 ∧ appendsAt i s3 s4) := by
  constructor
  · intro s h
    refine ⟨?_, ?_, ?_⟩
    · unfold handleTextSubmit
      rw [if_pos h]
    · unfold handleSkipClick
      rw [if_pos h]
    · unfold stopRecording
      rw [if_pos h]
  · rintro i s1 s2 s3 _ ⟨_, h2len⟩ hstar ⟨s4, _, ⟨h3len, _⟩⟩
    have := star_allQA_mono hstar
    omega

/-- Witness for C2: the guards at the concrete non-`LISTENING` state
`s4C`, and the concrete appending step `s3C ⟶ s4C` for index 0 after
which no further step appends index 0. -/
theorem C2_at_most_one_record_per_index_witness :
    handleTextSubmit s4C = s4C ∧
    ¬ ∃ s5, Step s4C s5 ∧ appendsAt 0 s4C s5 :=
  ⟨(C2_at_most_one_record_per_index.1 s4C (by decide)).1,
   C2_at_most_one_record_per_index.2 0 s3C s4C s4C
     (Step.netRespond 2 q0C "I used a hash map to deduplicate records." "typed" [] []
       (some dC) s3C (by decide))
     ⟨by decide, by decide⟩ Relation.ReflTransGen.refl⟩

/-- C3 as stated is false: `s4C` is a reachable state of a running
interview before finalization (it sits in `FEEDBACK` right after the
first answer was scored) in which the accumulated record list has
length 1 while `currentIndex` is still 0. -/
theorem C3_counterexample :
    Reach s4C ∧ InProgress s4C ∧ s4C.allQA.length ≠ s4C.currentIndex := by
  refine ⟨⟨preC, by decide, ?_⟩, by decide, by decide⟩
  have st1 : Step s0C s1C := Step.fireSpeech SpeechCb.toListening s0C (by decide)
  have st2 : Step s1C s2C :=
    Step.typeInput "I used a hash map to deduplicate records." s1C (by decide) (by decide)
  have st3 : Step s2C s3C := Step.textSubmit s2C
  have st4 : Step s3C s4C :=
    Step.netRespond 2 q0C "I used a hash map to deduplicate records." "typed" [] []
      (some dC) s3C (by decide)
  exact (((Relation.ReflTransGen.refl.tail st1).tail st2).tail st3).tail st4

/-- C3 (amended): for every reachable session state, the number of
accumulated `QARecord`s equals `currentIndex` in the `ASKING`,
`LISTENING` and `SUBMITTING` states; it equals `currentIndex + 1` in
`FEEDBACK` before finalization has begun; and it equals 3 once
finalization has begun (a finalization round-trip is in flight) and in
the final `DONE` state. -/
theorem C3_record_count_invariant :
    ∀ s : AppState, Reach s →
      ((s.turnState = TURN.ASKING ∨ s.turnState = TURN.LISTENING ∨
          s.turnState = TURN.SUBMITTING) → s.allQA.length = s.currentIndex) ∧
      (s.turnState = TURN.FEEDBACK → (∀ p ∈ s.pending, finalReq p = false) →
        s.allQA.length = s.currentIndex + 1) ∧
      ((∃ p ∈ s.pending, finalReq p = true) → s.allQA.length = 3) ∧
      (s.turnState = TURN.DONE → s.allQA.length = 3) := by
  intro s hr
  have h := reach_inv hr
  refine ⟨?_, ?_, ?_, ?_⟩
  · rintro (hts | hts | hts)
    · exact (h.asking hts).1
    · exact (h.listening hts).1
    · exact (h.submitting hts).1
  · intro hts hnf
    obtain ⟨_, hd⟩ := h.fdbk hts
    rcases hd with ⟨hlen, _, _, _⟩ | ⟨_, _, _, honeF⟩
    · exact hlen
    · exfalso
      have h0 : countF s.pending = 0 := countF_eq_zero.mp hnf
      unfold oneFinal at honeF
      omega
  · rintro ⟨p, hp, hf⟩
    exact (feedback_of_final h hp hf).2.2.1
  · intro hts
    exact (h.done hts).1

/-- Witness for C3 (amended) at the concrete reachable start state
`s0C` (in `ASKING`, zero records, index 0). -/
theorem C3_record_count_invariant_witness :
    s0C.allQA.length = s0C.currentIndex :=
  (C3_record_count_invariant s0C ⟨preC, by decide, Relation.ReflTransGen.refl⟩).1
    (Or.inl (by decide))

/-- C4: `startInterview` with an edited question list of length ≠ 3
only reports a validation failure (an alert is appended) and leaves
every other field — questions, interviewStarted, scores, feedback,
records, currentIndex, turnState — unchanged; with exactly 3 questions
it installs the edited questions, clears scores, feedback and records,
and begins asking question 0 (announcing it, entering `ASKING` while
the prompt is read aloud, or landing directly in `LISTENING` when no
synthesis is available). -/
theorem C4_startInterview_validation :
    ∀ s : AppState,
      (s.editingQuestions.length ≠ 3 →
        startInterview s =
          { s with alerts := s.alerts ++ ["You must have exactly 3 questions."] }) ∧
      (s.editingQuestions.length = 3 →
        (startInterview s).questions = s.editingQuestions ∧
        (startInterview s).interviewStarted = true ∧
        (startInterview s).scores = none ∧
        (startInterview s).feedback = none ∧
        (startInterview s).allQA = [] ∧
        (startInterview s).currentIndex = 0 ∧
        (∃ q, s.editingQuestions.get? 0 = some q ∧
          (startInterview s).agentMessage = askMsg 0 q) ∧
        (s.synthAvailable = true →
          (startInterview s).turnState = TURN.ASKING ∧
          (startInterview s).speechSlot = some SpeechCb.toListening) ∧
        (s.synthAvailable = false →
          (startInterview s).turnState = TURN.LISTENING)) := by
  intro s
  constructor
  · intro h
    unfold startInterview
    rw [if_pos h]
  · intro h3
    unfold startInterview
    rw [if_neg (fun hc => hc h3)]
    unfold askQuestion
    split
    · next heq =>
      exfalso
      rw [List.get?_eq_none] at heq
      have : s.editingQuestions.length ≤ 0 := heq
      omega
    · next q heq =>
      unfold speakListening
      split
      · next hav =>
        refine ⟨rfl, rfl, rfl, rfl, rfl, rfl, ⟨q, heq, rfl⟩, ?_, ?_⟩
        · intro _
          exact ⟨rfl, rfl⟩
        · intro hf
          have hav2 : s.synthAvailable = true := hav
          rw [hf] at hav2
          exact Bool.noConfusion hav2
      · next hav =>
        refine ⟨rfl, rfl, rfl, rfl, rfl, rfl, ⟨q, heq, rfl⟩, ?_, ?_⟩
        · intro htr
          exact absurd htr hav
        · intro _
          rfl

/-- Witness for C4: the wrong-length state `preBadC` changes only its
alert log; the ready state `preC` starts cleanly at question 0. -/
theorem C4_startInterview_validation_witness :
    startInterview preBadC =
      { preBadC with alerts := preBadC.alerts ++ ["You must have exactly 3 questions."] } ∧
    (startInterview preC).allQA = [] ∧
    (startInterview preC).currentIndex = 0 :=
  ⟨(C4_startInterview_validation preBadC).1 (by decide),
   ((C4_startInterview_validation preC).2 (by decide)).2.2.2.2.1,
   ((C4_startInterview_validation preC).2 (by decide)).2.2.2.2.2.1⟩

/-- C5: for every recoverable submission failure whose token is still
active — empty/whitespace-only transcript, transcription error,
respond error, skip error — the machine returns to `LISTENING` (for
the empty transcript, after the apology read-aloud completes) with no
`QARecord` appended and the question index unchanged; and from any
`LISTENING` state a retry with a non-empty typed answer proceeds
normally into `SUBMITTING` with a fresh respond round-trip for the
current question. -/
theorem C5_recoverable_failures_return_to_listening :
    ∀ (s : AppState) (tok : Nat) (w : String) (q : Question) (a src : String),
      s.activeSubmitToken = tok →
      (jsTrim w = "" →
        ∃ s', Relation.ReflTransGen Step (resolveTranscribe tok (some w) s) s' ∧
          s'.turnState = TURN.LISTENING ∧ s'.allQA = s.allQA ∧
          s'.currentIndex = s.currentIndex) ∧
      ((resolveTranscribe tok none s).turnState = TURN.LISTENING ∧
        (resolveTranscribe tok none s).allQA = s.allQA ∧
        (resolveTranscribe tok none s).currentIndex = s.currentIndex) ∧
      ((resolveRespond tok q a src none s).turnState = TURN.LISTENING ∧
        (resolveRespond tok q a src none s).allQA = s.allQA ∧
        (resolveRespond tok q a src none s).currentIndex = s.currentIndex) ∧
      ((resolveSkip tok q none s).turnState = TURN.LISTENING ∧
        (resolveSkip tok q none s).allQA = s.allQA ∧
        (resolveSkip tok q none s).currentIndex = s.currentIndex) ∧
      (∀ (s2 : AppState) (q2 : Question), s2.turnState = TURN.LISTENING →
        s2.isRecording = false → jsTrim s2.userInput ≠ "" →
        s2.questions.get? s2.currentIndex = some q2 →
        (handleTextSubmit s2).turnState = TURN.SUBMITTING ∧
        Pending.respond (s2.activeSubmitToken + 1) q2 (jsTrim s2.userInput) "typed"
          ∈ (handleTextSubmit s2).pending ∧
        (handleTextSubmit s2).allQA = s2.allQA) := by
  intro s tok w q a src htok
  subst htok
  refine ⟨?_, ?_, ?_, ?_, ?_⟩
  · intro htrim
    simp only [resolveTranscribe]
    rw [if_neg (fun hc => hc rfl), if_pos htrim]
    unfold speakListening
    split
    · refine ⟨_, Relation.ReflTransGen.single
        (Step.fireSpeech SpeechCb.toListening _ rfl), rfl, rfl, rfl⟩
    · exact ⟨_, Relation.ReflTransGen.refl, rfl, rfl, rfl⟩
  · simp only [resolveTranscribe]
    rw [if_neg (fun hc => hc rfl)]
    unfold speakNoCb
    split <;> exact ⟨rfl, rfl, rfl⟩
  · simp only [resolveRespond]
    rw [if_neg (fun hc => hc rfl)]
    unfold speakNoCb
    split <;> exact ⟨rfl, rfl, rfl⟩
  · simp only [resolveSkip]
    rw [if_neg (fun hc => hc rfl)]
    unfold speakNoCb
    split <;> exact ⟨rfl, rfl, rfl⟩
  · intro s2 q2 hls hrec hne hq2
    have hsa : stopAnyRecording s2 = s2 := by
      unfold stopAnyRecording
      rw [if_neg (by rw [hrec]; simp)]
    have hq2b : ({ s2 with
        turnState := TURN.SUBMITTING,
        activeSubmitToken := s2.activeSubmitToken + 1 } : AppState).questions.get?
        ({ s2 with
          turnState := TURN.SUBMITTING,
          activeSubmitToken := s2.activeSubmitToken + 1 } : AppState).currentIndex
        = some q2 := hq2
    unfold handleTextSubmit
    rw [if_neg (fun hc => hc hls), hsa, if_neg hne, submitSingleAnswer_some _ _ _ hq2b]
    exact ⟨rfl, List.mem_cons_self _ _, rfl⟩

/-- Witness for C5: a transcription error on the in-flight concrete
submission returns `s3C` to `LISTENING`; a retry from the concrete
`LISTENING` state `s2C` moves to `SUBMITTING`. -/
theorem C5_recoverable_failures_return_to_listening_witness :
    (resolveTranscribe 2 none s3C).turnState = TURN.LISTENING ∧
    (handleTextSubmit s2C).turnState = TURN.SUBMITTING :=
  ⟨((C5_recoverable_failures_return_to_listening s3C 2 " " q0C "x" "typed"
      (by decide)).2.1).1,
   ((C5_recoverable_failures_return_to_listening s2C 1 " " q0C "x" "typed"
      (by decide)).2.2.2.2 s2C q0C (by decide) (by decide) (by decide) (by decide)).1⟩

/-- C6: every successful non-stale answer submission appends exactly
the record containing the 3-turn conversation — agent restating the
question (`Question: …`), candidate turn with the submitted answer,
agent turn with the collaborator's reply — together with the
`summary`, `remarks` and `score` of the respond response, tagged with
the submission's `meta.source`; and the two submission paths tag their
launches `"voice"` (transcribed audio) and `"typed"` (text form)
respectively. -/
theorem C6_success_record_shape :
    ∀ (s : AppState) (tok : Nat) (q : Question) (a src : String) (d : RespondData),
      s.activeSubmitToken = tok →
      ((resolveRespond tok q a src (some d) s).allQA = s.allQA ++
        [{ question := q.text,
           conversation :=
             [{ sender := Sender.agent, text := "Question: " ++ q.text },
              { sender := Sender.candidate, text := a },
              { sender := Sender.agent, text := d.reply }],
           summary := d.summary, remarks := d.remarks, score := d.score,
           source := src }]) ∧
      (∀ w : String, jsTrim w ≠ "" → ∀ q2 : Question,
        s.questions.get? s.currentIndex = some q2 →
        Pending.respond tok q2 (jsTrim w) "voice"
          ∈ (resolveTranscribe tok (some w) s).pending) ∧
      (∀ (s2 : AppState) (q2 : Question), s2.turnState = TURN.LISTENING →
        s2.isRecording = false → jsTrim s2.userInput ≠ "" →
        s2.questions.get? s2.currentIndex = some q2 →
        Pending.respond (s2.activeSubmitToken + 1) q2 (jsTrim s2.userInput) "typed"
          ∈ (handleTextSubmit s2).pending) := by
  intro s tok q a src d htok
  subst htok
  refine ⟨?_, ?_, ?_⟩
  · simp only [resolveRespond]
    rw [if_neg (fun hc => hc rfl), allQA_speakAdvance]
    rfl
  · intro w hw q2 hq2
    simp only [resolveTranscribe]
    rw [if_neg (fun hc => hc rfl), if_neg hw, submitSingleAnswer_some _ _ _ hq2]
    exact List.mem_cons_self _ _
  · intro s2 q2 hls hrec hne hq2
    have hsa : stopAnyRecording s2 = s2 := by
      unfold stopAnyRecording
      rw [if_neg (by rw [hrec]; simp)]
    have hq2b : ({ s2 with
        turnState := TURN.SUBMITTING,
        activeSubmitToken := s2.activeSubmitToken + 1 } : AppState).questions.get?
        ({ s2 with
          turnState := TURN.SUBMITTING,
          activeSubmitToken := s2.activeSubmitToken + 1 } : AppState).currentIndex
        = some q2 := hq2
    unfold handleTextSubmit
    rw [if_neg (fun hc => hc hls), hsa, if_neg hne, submitSingleAnswer_some _ _ _ hq2b]
    exact List.mem_cons_self _ _

/-- Witness for C6: the non-empty transcript `" hello "` of the
in-flight concrete voice submission launches a respond round-trip for
question 0 tagged `"voice"`. -/
theorem C6_success_record_shape_witness :
    Pending.respond 2 q0C "hello" "voice" ∈ (resolveTranscribe 2 (some " hello ") s3C).pending :=
  (C6_success_record_shape s3C 2 q0C "x" "typed" dC (by decide)).2.1 " hello "
    (by decide) q0C (by decide)

/-- C7: a skip accepted in `LISTENING` is a single round-trip (no hint
stage, no second confirmation): the click immediately moves to
`SUBMITTING` with one skip request; when its token is still active on
completion, exactly one `QARecord` is appended whose candidate turn is
`[SKIPPED]` and whose `meta.source` is `"skip"`, the machine moves to
`FEEDBACK` queueing the reply read-aloud (or advances synchronously
without synthesis), and the read-aloud completion advances to the next
question or to finalization. -/
theorem C7_skip_is_immediately_terminal :
    ∀ (s : AppState) (tok : Nat) (q : Question) (d : RespondData),
      s.activeSubmitToken = tok →
      ((resolveSkip tok q (some d) s).allQA = s.allQA ++ [skipRecord q d]) ∧
      ((skipRecord q d).conversation.get? 1 =
        some { sender := Sender.candidate, text := "[SKIPPED]" }) ∧
      ((skipRecord q d).source = "skip") ∧
      (∀ (s2 : AppState) (q2 : Question), s2.turnState = TURN.LISTENING →
        s2.isRecording = false → s2.questions.get? s2.currentIndex = some q2 →
        (handleSkipClick s2).turnState = TURN.SUBMITTING ∧
        Pending.skip (s2.activeSubmitToken + 1) q2 ∈ (handleSkipClick s2).pending) ∧
      (s.synthAvailable = true →
        (resolveSkip tok q (some d) s).turnState = TURN.FEEDBACK ∧
        (resolveSkip tok q (some d) s).speechSlot =
          some (SpeechCb.advance (s.allQA ++ [skipRecord q d]) s.currentIndex
            s.questions.length)) ∧
      (s.synthAvailable = false →
        resolveSkip tok q (some d) s =
          runAdvance (s.allQA ++ [skipRecord q d]) s.currentIndex s.questions.length
            { s with allQA := s.allQA ++ [skipRecord q d], turnState := TURN.FEEDBACK,
                     agentMessage := d.reply, userInput := "" }) ∧
      (∀ (s3 : AppState) (qa : List QARecord) (i n : Nat), i + 1 < n →
        runAdvance qa i n s3 = askQuestion (i + 1) s3) ∧
      (∀ (s3 : AppState) (qa : List QARecord) (i n : Nat), ¬ i + 1 < n →
        runAdvance qa i n s3 = finishInterview qa s3) := by
  intro s tok q d htok
  subst htok
  refine ⟨?_, rfl, rfl, ?_, ?_, ?_, ?_, ?_⟩
  · simp only [resolveSkip]
    rw [if_neg (fun hc => hc rfl), allQA_speakAdvance]
  · intro s2 q2 hls hrec hq2
    have hsa : stopAnyRecording s2 = s2 := by
      unfold stopAnyRecording
      rw [if_neg (by rw [hrec]; simp)]
    unfold handleSkipClick
    rw [if_neg (fun hc => hc hls), hsa]
    have hq2b : s2.questions.get? s2.currentIndex = some q2 := hq2
    rw [hq2b]
    exact ⟨rfl, List.mem_cons_self _ _⟩
  · intro hav
    simp only [resolveSkip]
    rw [if_neg (fun hc => hc rfl)]
    unfold speakAdvance
    rw [if_pos (show ({ s with
        allQA := s.allQA ++ [skipRecord q d], turnState := TURN.FEEDBACK,
        agentMessage := d.reply, userInput := "" } : AppState).synthAvailable = true from hav)]
    exact ⟨rfl, rfl⟩
  · intro hof
    simp only [resolveSkip]
    rw [if_neg (fun hc => hc rfl)]
    unfold speakAdvance
    rw [if_neg (show ¬ ({ s with
        allQA := s.allQA ++ [skipRecord q d], turnState := TURN.FEEDBACK,
        agentMessage := d.reply, userInput := "" } : AppState).synthAvailable = true by
      intro hc
      have hc2 : s.synthAvailable = true := hc
      rw [hof] at hc2
      exact Bool.noConfusion hc2)]
  · intro s3 qa i n hlt
    unfold runAdvance
    rw [if_pos hlt]
  · intro s3 qa i n hge
    unfold runAdvance
    rw [if_neg hge]

/-- Witness for C7 at the concrete session: clicking skip on question
0 launches one skip round-trip, and its fresh resolution appends the
`[SKIPPED]` record and moves to `FEEDBACK`. -/
theorem C7_skip_is_immediately_terminal_witness :
    (resolveSkip 2 q0C (some dC) { s5C with pending := [] }).allQA =
      ({ s5C with pending := [] } : AppState).allQA ++ [skipRecord q0C dC] ∧
    (resolveSkip 2 q0C (some dC) { s5C with pending := [] }).turnState = TURN.FEEDBACK ∧
    (handleSkipClick s1C).turnState = TURN.SUBMITTING :=
  ⟨(C7_skip_is_immediately_terminal { s5C with pending := [] } 2 q0C dC (by decide)).1,
   ((C7_skip_is_immediately_terminal { s5C with pending := [] } 2 q0C dC
      (by decide)).2.2.2.2.1 (by decide)).1,
   ((C7_skip_is_immediately_terminal { s5C with pending := [] } 2 q0C dC
      (by decide)).2.2.2.1 s1C q0C (by decide) (by decide) (by decide)).1⟩

/-- C8: the recording timer armed by `startRecording` fires after
`ANSWER_RECORD_MS = 45000` milliseconds; if the recording is still
active it stops it, and the automatic stop is the very same
recorder-stop primitive the manual Stop & Send button calls — on any
state where the manual stop is accepted the two are equal, so the
queued `onstop` event (and hence blob assembly, transcription and
`submitSingleAnswer`) is identical for the same audio. -/
theorem C8_autostop_equals_manual_stop :
    ANSWER_RECORD_MS = 45000 ∧
    (∀ s : AppState, s.recorderActive = true →
      (recorderTimeout s).recorderActive = false ∧
      Pending.recorderStopped ∈ (recorderTimeout s).pending) ∧
    (∀ s : AppState, s.turnState = TURN.LISTENING → s.isRecording = true →
      recorderTimeout s = stopRecording s) ∧
    (∀ s : AppState, recorderTimeout s = recStop s) ∧
    (∀ s : AppState, s.turnState = TURN.LISTENING →
      recorderOnStop s =
        submitVoiceBlob (String.join s.recordedChunks) { s with isRecording := false }) := by
  refine ⟨rfl, ?_, ?_, ?_, ?_⟩
  · intro s h
    unfold recorderTimeout recStop
    rw [if_pos h, if_pos h]
    exact ⟨rfl, List.mem_cons_self _ _⟩
  · intro s hls hrec
    have hstop : stopRecording s = recStop s := by
      unfold stopRecording
      rw [if_neg (fun hc => hc hls), if_pos hrec]
    rw [hstop]
    unfold recorderTimeout
    by_cases hra : s.recorderActive = true
    · rw [if_pos hra]
    · rw [if_neg hra]
      unfold recStop
      rw [if_neg hra]
  · intro s
    unfold recorderTimeout
    by_cases hra : s.recorderActive = true
    · rw [if_pos hra]
    · rw [if_neg hra]
      unfold recStop
      rw [if_neg hra]
  · intro s hls
    unfold recorderOnStop
    rw [if_neg (fun hc => hc hls)]

/-- Witness for C8 at the concrete armed recording `sRecC`: the timer
fire stops the recorder and equals the manual Stop & Send. -/
theorem C8_autostop_equals_manual_stop_witness :
    (recorderTimeout sRecC).recorderActive = false ∧
    recorderTimeout sRecC = stopRecording sRecC :=
  ⟨(C8_autostop_equals_manual_stop.2.1 sRecC (by decide)).1,
   C8_autostop_equals_manual_stop.2.2.1 sRecC (by decide) (by decide)⟩

/-- C9: when the evaluate round-trip of `finishInterview` succeeds,
the scores and feedback are stored before the save round-trip is
launched; a failing save does not roll them back — they stay exactly
as stored, the score panel's display condition holds, the session
closes normally (`DONE`, interview no longer running), and the failure
is only reported through the closing message. -/
theorem C9_save_failure_keeps_results :
    ∀ (s : AppState) (sc : Scores) (fb : Feedback),
      ((resolveEvaluate (some (sc, fb)) s).scores = some sc ∧
        (resolveEvaluate (some (sc, fb)) s).feedback = some fb ∧
        Pending.save ∈ (resolveEvaluate (some (sc, fb)) s).pending) ∧
      (∀ s2 : AppState,
        (resolveSave false s2).scores = s2.scores ∧
        (resolveSave false s2).feedback = s2.feedback ∧
        (resolveSave false s2).turnState = TURN.DONE ∧
        (resolveSave false s2).interviewStarted = false ∧
        (resolveSave false s2).agentMessage =
          "Interview completed, but evaluation failed.") ∧
      resultsDisplayed (resolveSave false (resolveEvaluate (some (sc, fb)) s)) := by
  intro s sc fb
  have hsave : ∀ s2 : AppState,
      (resolveSave false s2).scores = s2.scores ∧
      (resolveSave false s2).feedback = s2.feedback ∧
      (resolveSave false s2).turnState = TURN.DONE ∧
      (resolveSave false s2).interviewStarted = false ∧
      (resolveSave false s2).agentMessage =
        "Interview completed, but evaluation failed." := by
    intro s2
    have hred : resolveSave false s2 = finishCatch s2 := rfl
    rw [hred]
    unfold finishCatch speakNoCb
    split <;> exact ⟨rfl, rfl, rfl, rfl, rfl⟩
  refine ⟨⟨rfl, rfl, List.mem_cons_self _ _⟩, hsave, ?_⟩
  obtain ⟨hsc, hfb, _⟩ := hsave (resolveEvaluate (some (sc, fb)) s)
  unfold resultsDisplayed
  rw [hsc, hfb]
  exact ⟨rfl, rfl⟩

/-- C10: when the speech-synthesis facility is unavailable, every
`speak` invokes its completion callback immediately and synchronously:
the question read-aloud callback lands the machine in `LISTENING` in
the very same step, the error-message utterances are no-ops, and a
successful respond resolution runs the feedback-completion advance
synchronously — so no transition gated on playback completion can
block forever. -/
theorem C10_no_synthesis_immediate_callback :
    ∀ s : AppState, s.synthAvailable = false →
      (speakListening s = runListening s) ∧
      (speakNoCb s = s) ∧
      (∀ qa : List QARecord,
        speakAdvance qa s = runAdvance qa s.currentIndex s.questions.length s) ∧
      (∀ (i : Nat) (q : Question), s.editingQuestions.get? i = some q →
        (askQuestion i s).turnState = TURN.LISTENING) ∧
      (∀ (tok : Nat) (q : Question) (a src : String) (d : RespondData),
        s.activeSubmitToken = tok →
        resolveRespond tok q a src (some d) s =
          runAdvance (s.allQA ++ [respondRecord q a src d]) s.currentIndex
            s.questions.length
            { s with allQA := s.allQA ++ [respondRecord q a src d],
                     turnState := TURN.FEEDBACK, agentMessage := d.reply,
                     userInput := "" }) := by
  intro s hof
  have hnotrue : ∀ s9 : AppState, s9.synthAvailable = false →
      ¬ s9.synthAvailable = true := by
    intro s9 h9 hc
    rw [h9] at hc
    exact Bool.noConfusion hc
  refine ⟨?_, ?_, ?_, ?_, ?_⟩
  · unfold speakListening
    rw [if_neg (hnotrue s hof)]
  · unfold speakNoCb
    rw [if_neg (hnotrue s hof)]
  · intro qa
    unfold speakAdvance
    rw [if_neg (hnotrue s hof)]
  · intro i q hq
    unfold askQuestion
    rw [hq]
    split
    · next hc => exact Option.noConfusion hc
    · next q2 hc =>
      unfold speakListening
      split
      · next hcav =>
        exfalso
        have hc2 : s.synthAvailable = true := hcav
        rw [hof] at hc2
        exact Bool.noConfusion hc2
      · rfl
  · intro tok q a src d htok
    subst htok
    simp only [resolveRespond]
    rw [if_neg (fun hc => hc rfl)]
    unfold speakAdvance
    split
    · next hc =>
      exfalso
      have hc2 : s.synthAvailable = true := hc
      rw [hof] at hc2
      exact Bool.noConfusion hc2
    · rfl

/-- Witness for C10 in the concrete no-synthesis browser state `preD`:
`speak` is an immediate no-op and starting the interview lands
directly in `LISTENING` for question 0. -/
theorem C10_no_synthesis_immediate_callback_witness :
    speakNoCb preD = preD ∧ (askQuestion 0 preD).turnState = TURN.LISTENING :=
  ⟨(C10_no_synthesis_immediate_callback preD (by decide)).2.1,
   (C10_no_synthesis_immediate_callback preD (by decide)).2.2.2.1 0 q0C (by decide)⟩
